import Mathlib

/-!
# Verification of the parallelproj Python adapter layer

Shallow embedding of `parallelproj/backend.py` (the array-namespace adapter,
chunking helper, CUDA detection and library loading) together with a model of
the native Joseph 3D projection kernels (which live in compiled C/CUDA
libraries outside the Python sources and are therefore modelled from the
specification, §4.1–§4.5).

Arithmetic is embedded over `ℚ`; the transcendental primitives used by the
native kernels (`sqrt` for the Euclidean norm, `erf` for the TOF bin weight)
are passed as function parameters, since no statement proved here depends on
their values.

The file is organised as: all definitions first, then all lemmas and theorems.
-/

namespace Parallelproj

/-! ## `calc_chunks` (backend.py, lines 352–370)

Python source:
```
def calc_chunks(nLORs, num_chunks):
    rem = nLORs % num_chunks
    div = (nLORs // num_chunks)
    chunks = [0]
    for i in range(num_chunks):
        if i < rem:
            nLORs_chunck = div + 1
        else:
            nLORs_chunck = div
        chunks.append(chunks[i] + nLORs_chunck)
    return chunks
```
-/

def calc_chunks (nLORs num_chunks : Nat) : List Nat :=
  let rem := nLORs % num_chunks
  let div := nLORs / num_chunks
  (List.range num_chunks).foldl
    (fun chunks i =>
      chunks ++ [chunks.getD i 0 + (if i < rem then div + 1 else div)])
    [0]

/-- The full behaviour of `calc_chunks` claimed by the spec: `num_chunks + 1`
nondecreasing indices from `0` to `nLORs`, the first `nLORs % num_chunks`
consecutive differences being `nLORs / num_chunks + 1` and the rest
`nLORs / num_chunks`; and the concrete example `calc_chunks 10 3 = [0,4,7,10]`. -/
def chunksSpec (n m : Nat) : Prop :=
  (calc_chunks n m).length = m + 1
  ∧ List.Pairwise (· ≤ ·) (calc_chunks n m)
  ∧ (calc_chunks n m).getD 0 0 = 0
  ∧ (calc_chunks n m).getLast? = some n
  ∧ (∀ i < m, (calc_chunks n m).getD (i + 1) 0
      = (calc_chunks n m).getD i 0 + (if i < n % m then n / m + 1 else n / m))
  ∧ calc_chunks 10 3 = [0, 4, 7, 10]

/-! ## Array model for the array-namespace adapter

Arrays of the supported frameworks (numpy, cupy, torch) are modelled by a
record carrying shape, dtype, framework namespace, device and element data.
Mutable array identity is modelled by a store (a list of arrays addressed by
index), so that aliasing and in-place kernel writes are observable. -/

inductive DType
  | float32
  | float64
  | int32
  | int16
deriving DecidableEq

inductive NSpace
  | numpy
  | cupy
  | torch
deriving DecidableEq

inductive DevKind
  | cpu
  | cuda
deriving DecidableEq

structure Device where
  kind : DevKind
  index : Nat
deriving DecidableEq

structure Arr where
  shape : List Nat
  dtype : DType
  ns : NSpace
  device : Device
  data : List ℚ
deriving DecidableEq

instance : Inhabited Arr :=
  ⟨⟨[], DType.float32, NSpace.numpy, ⟨DevKind.cpu, 0⟩, []⟩⟩

/-- Module name of the namespace returned by
`array_api_compat.get_namespace` for each supported framework
(external-library fact). -/
def nsModName : NSpace → List Char
  | NSpace.numpy => "array_api_compat.numpy".toList
  | NSpace.cupy => "array_api_compat.cupy".toList
  | NSpace.torch => "array_api_compat.torch".toList

/-- The Python substring test `needle in hay`. -/
def containsSub (needle : List Char) : List Char → Bool
  | [] => needle.isEmpty
  | c :: rest => needle.isPrefixOf (c :: rest) || containsSub needle rest

/-- backend.py lines 372–382:
```
def is_cuda_array(x) -> bool:
    iscuda = False
    if 'cupy' in array_api_compat.get_namespace(x).__name__:
        iscuda = True
    elif 'torch' in array_api_compat.get_namespace(x).__name__:
        if array_api_compat.device(x).type == 'cuda':
            iscuda = True
    return iscuda
``` -/
def is_cuda_array (x : Arr) : Bool :=
  if containsSub "cupy".toList (nsModName x.ns) then true
  else if containsSub "torch".toList (nsModName x.ns) then
    decide (x.device.kind = DevKind.cuda)
  else false

abbrev ArrId := Nat

abbrev Store := List Arr

def getA (st : Store) (i : ArrId) : Arr := st.getD i default

/-- In-place write of the element data of array `i` (kernel writes through
views never change shape, dtype, namespace or device). -/
def setData (st : Store) (i : ArrId) (d : List ℚ) : Store :=
  st.set i { getA st i with data := d }

/-- Allocation of a fresh array inside a call (`np.zeros`, `cp.zeros`, or a
copying conversion). -/
def alloc (st : Store) (a : Arr) : Store × ArrId := (st ++ [a], st.length)

/-- Model of `xp.asarray(arr, device=dev)` where `xp` is the namespace of the
primary input: returns the same array when it already lives in that namespace
on that device, otherwise a converted copy (shape, dtype and values kept). -/
def xpAsarray (st : Store) (i : ArrId) (ns : NSpace) (dev : Device) :
    Store × ArrId :=
  let a := getA st i
  if a.ns = ns ∧ a.device = dev then (st, i)
  else alloc st { a with ns := ns, device := dev }

/-- Observable native calls made by the adapter. -/
inductive Ev
  | cupyFwdKernel
  | cupyBackKernel
  | copyToAllDevices
  | chunkFwdKernel (i : Nat)
  | chunkBackKernel (i : Nat)
  | sumOnFirstDevice
  | getFromDevice
  | freeAllDevices
  | cFwdKernel
  | cBackKernel
deriving DecidableEq

/-- A Python exception propagating out of a native call. -/
inductive PyErr
  | deviceError (chunk : Nat)
deriving DecidableEq

/-- Ambient configuration of the adapter: the number of visible CUDA devices
(process-wide global of backend.py), which hybrid chunk launches fail, and the
value behaviour of the native kernels (uninterpreted: the kernels live in
compiled libraries outside the Python sources).  Failure injection is
provided only for the hybrid chunk launches, which claim C7 is about; the
other native calls of the source (the cupy raw-kernel launch, the device
synchronize, the device allocations) can raise too but are modelled as
total, so no statement in this file concludes anything from the absence of
such failures. -/
structure Cfg where
  nvcd : Nat
  fwdChunkFail : Nat → Option PyErr
  backChunkFail : Nat → Option PyErr
  kernelOut : Ev → List (List ℚ) → List ℚ

/-- Kernel write into the slice `[a, b)` of a flat payload buffer. -/
def writeSlice (old : List ℚ) (a b : Nat) (piece : List ℚ) : List ℚ :=
  old.take a ++ piece.take (b - a) ++ old.drop b

structure ChunkOut where
  st : Store
  tr : List Ev
  err : Option PyErr

/-- The chunk loop of the hybrid (host array, visible CUDA devices) forward
path, backend.py lines 445–455: chunk `i` projects LORs `ic[i] … ic[i+1]` and
writes the corresponding slice of `img_fwd`; an exception in a launch
propagates immediately. -/
def runFwdChunks (cfg : Cfg) (ic : List Nat) (xs xe : List ℚ) (outId : ArrId) :
    List Nat → Store → ChunkOut
  | [], st => ⟨st, [], none⟩
  | i :: rest, st =>
    match cfg.fwdChunkFail i with
    | some e => ⟨st, [Ev.chunkFwdKernel i], some e⟩
    | none =>
      let a := ic.getD i 0
      let b := ic.getD (i + 1) 0
      let piece := cfg.kernelOut (Ev.chunkFwdKernel i)
        [(xs.drop (3 * a)).take (3 * (b - a)),
         (xe.drop (3 * a)).take (3 * (b - a))]
      let st1 := setData st outId (writeSlice (getA st outId).data a b piece)
      let r := runFwdChunks cfg ic xs xe outId rest st1
      ⟨r.st, Ev.chunkFwdKernel i :: r.tr, r.err⟩

/-- The chunk loop of the hybrid back path, backend.py lines 534–544: each
chunk accumulates into the per-device image replicas (device memory, not part
of the host store); an exception in a launch propagates immediately. -/
def runBackChunks (cfg : Cfg) : List Nat → List Ev × Option PyErr
  | [] => ([], none)
  | i :: rest =>
    match cfg.backChunkFail i with
    | some e => ([Ev.chunkBackKernel i], some e)
    | none =>
      let r := runBackChunks cfg rest
      (Ev.chunkBackKernel i :: r.1, r.2)

/-- Result of an adapter call: final store, trace of native calls, and either
the id of the returned array or the propagated exception. -/
structure COut where
  st : Store
  tr : List Ev
  res : Except PyErr ArrId

/-- Common tail of the non-chunked paths: after the single kernel call `ev`
has written the freshly allocated output, `return xp.asarray(out, device)`. -/
def finishDirect (stA : Store) (outId : ArrId) (ns : NSpace) (dev : Device)
    (ev : Ev) : COut :=
  ⟨(xpAsarray stA outId ns dev).1, [ev],
    Except.ok (xpAsarray stA outId ns dev).2⟩

/-- Tail of the hybrid forward path: an exception from the chunk loop
propagates as is (the device replicas are not freed); on the normal path the
replicas are freed and the output converted back. -/
def finishFwdHybrid (stR : Store) (trR : List Ev) (outId : ArrId)
    (ns : NSpace) (dev : Device) : Option PyErr → COut
  | some e => ⟨stR, Ev.copyToAllDevices :: trR, Except.error e⟩
  | none =>
      ⟨(xpAsarray stR outId ns dev).1,
        Ev.copyToAllDevices :: (trR ++ [Ev.freeAllDevices]),
        Except.ok (xpAsarray stR outId ns dev).2⟩

/-- Tail of the hybrid back path: an exception from the chunk loop propagates
as is (no summing, no copy back, no free); on the normal path the replicas are
summed on device 0, copied back into the host output, and freed. -/
def finishBackHybrid (cfg : Cfg) (st1 : Store) (trc : List Ev)
    (outId : ArrId) (ns : NSpace) (dev : Device) : Option PyErr → COut
  | some e => ⟨st1, Ev.copyToAllDevices :: trc, Except.error e⟩
  | none =>
      let st2 := setData st1 outId (cfg.kernelOut Ev.getFromDevice [])
      ⟨(xpAsarray st2 outId ns dev).1,
        Ev.copyToAllDevices ::
          (trc ++ [Ev.sumOnFirstDevice, Ev.getFromDevice,
            Ev.freeAllDevices]),
        Except.ok (xpAsarray st2 outId ns dev).2⟩

/-- backend.py lines 385–470, `joseph3d_fwd`: branch on
`is_cuda_array(img)`; device arrays go through the cupy raw kernel, host
arrays go through the multi-GPU CUDA library when any CUDA device is visible
(image replicated to all devices, chunked launches, replicas freed) and
through the OpenMP C library otherwise; the result is converted back to the
framework and device of `img`. -/
def joseph3d_fwd (cfg : Cfg) (st : Store)
    (xstart xend img img_origin voxsize : ArrId)
    (threadsperblock num_chunks : Nat) : COut :=
  let nLORs := (getA st xstart).shape.prod / 3
  let imgNs := (getA st img).ns
  let imgDev := (getA st img).device
  if is_cuda_array (getA st img) then
    let p0 := alloc st
      { shape := (getA st xstart).shape.dropLast, dtype := DType.float32,
        ns := NSpace.cupy, device := imgDev,
        data := List.replicate (getA st xstart).shape.dropLast.prod 0 }
    finishDirect
      (setData p0.1 p0.2 (cfg.kernelOut Ev.cupyFwdKernel
        [(getA st xstart).data, (getA st xend).data, (getA st img).data,
         (getA st img_origin).data, (getA st voxsize).data]))
      p0.2 imgNs imgDev Ev.cupyFwdKernel
  else
    let p0 := alloc st
      { shape := (getA st xstart).shape.dropLast, dtype := DType.float32,
        ns := NSpace.numpy, device := ⟨DevKind.cpu, 0⟩,
        data := List.replicate (getA st xstart).shape.dropLast.prod 0 }
    if 0 < cfg.nvcd then
      let ic := calc_chunks nLORs num_chunks
      let r := runFwdChunks cfg ic (getA st xstart).data (getA st xend).data
        p0.2 (List.range num_chunks) p0.1
      finishFwdHybrid r.st r.tr p0.2 imgNs imgDev r.err
    else
      finishDirect
        (setData p0.1 p0.2 (cfg.kernelOut Ev.cFwdKernel
          [(getA st xstart).data, (getA st xend).data, (getA st img).data,
           (getA st img_origin).data, (getA st voxsize).data]))
        p0.2 imgNs imgDev Ev.cFwdKernel

/-- backend.py lines 472–567, `joseph3d_back`: branch on
`is_cuda_array(img_fwd)`; the output image `np.zeros(img_shape)` or
`cp.zeros(img_shape)` is allocated inside the call; in the hybrid path
zero-initialised replicas are copied to all devices, chunk launches
accumulate on devices, replicas are summed on device 0, copied back, and then
freed; the result is converted back to the framework and device of
`img_fwd`. -/
def joseph3d_back (cfg : Cfg) (st : Store)
    (xstart xend : ArrId) (img_shape : List Nat)
    (img_origin voxsize img_fwd : ArrId)
    (threadsperblock num_chunks : Nat) : COut :=
  let pNs := (getA st img_fwd).ns
  let pDev := (getA st img_fwd).device
  if is_cuda_array (getA st img_fwd) then
    let p0 := alloc st
      { shape := img_shape, dtype := DType.float32,
        ns := NSpace.cupy, device := pDev,
        data := List.replicate img_shape.prod 0 }
    finishDirect
      (setData p0.1 p0.2 (cfg.kernelOut Ev.cupyBackKernel
        [(getA st xstart).data, (getA st xend).data,
         (getA st img_origin).data, (getA st voxsize).data,
         (getA st img_fwd).data]))
      p0.2 pNs pDev Ev.cupyBackKernel
  else
    let p0 := alloc st
      { shape := img_shape, dtype := DType.float32,
        ns := NSpace.numpy, device := ⟨DevKind.cpu, 0⟩,
        data := List.replicate img_shape.prod 0 }
    if 0 < cfg.nvcd then
      finishBackHybrid cfg p0.1 (runBackChunks cfg (List.range num_chunks)).1
        p0.2 pNs pDev (runBackChunks cfg (List.range num_chunks)).2
    else
      finishDirect
        (setData p0.1 p0.2 (cfg.kernelOut Ev.cBackKernel
          [(getA st xstart).data, (getA st xend).data,
           (getA st img_origin).data, (getA st voxsize).data,
           (getA st img_fwd).data]))
        p0.2 pNs pDev Ev.cBackKernel

/-- Whether an adapter call returned normally. -/
def isOkRes : Except PyErr ArrId → Bool
  | Except.ok _ => true
  | Except.error _ => false

/-! ## Concrete fixtures used to evaluate the model -/

/-- A CPU-only configuration: no visible CUDA device, no kernel failures,
kernels writing empty data. -/
def cfg0 : Cfg := ⟨0, fun _ => none, fun _ => none, fun _ _ => []⟩

/-- A hybrid configuration with one visible CUDA device in which every chunk
kernel launch fails. -/
def cfgFail : Cfg :=
  ⟨1, fun _ => some (PyErr.deviceError 0), fun _ => some (PyErr.deviceError 0),
    fun _ _ => []⟩

/-- A concrete store: ids 0/1 are `(2, 3)` LOR endpoint arrays (so the number
of LORs implied by `xstart` is 2), id 2 a `(1,1,1)` image, ids 3/4 the origin
and voxel size, and id 5 a payload of length 5 — deliberately inconsistent
with the 2 LORs implied by `xstart`. -/
def stEx : Store :=
  [⟨[2, 3], DType.float32, NSpace.numpy, ⟨DevKind.cpu, 0⟩, [0, 0, 0, 0, 0, 0]⟩,
   ⟨[2, 3], DType.float32, NSpace.numpy, ⟨DevKind.cpu, 0⟩, [0, 0, 0, 0, 0, 0]⟩,
   ⟨[1, 1, 1], DType.float32, NSpace.numpy, ⟨DevKind.cpu, 0⟩, [1]⟩,
   ⟨[3], DType.float32, NSpace.numpy, ⟨DevKind.cpu, 0⟩, [0, 0, 0]⟩,
   ⟨[3], DType.float32, NSpace.numpy, ⟨DevKind.cpu, 0⟩, [1, 1, 1]⟩,
   ⟨[5], DType.float32, NSpace.numpy, ⟨DevKind.cpu, 0⟩, [1, 1, 1, 1, 1]⟩]

/-! ## Module initialisation (backend.py lines 42–55) -/

/-- First alternative wins: the environment value when present, the probed
value otherwise. -/
def libFnameAux : Option String → Option String → Option String
  | some v, _ => some v
  | none, fb => fb

/-- backend.py lines 42–46: the CPU library path comes from the environment
variable `PARALLELPROJ_C_LIB` when set, otherwise from
`ctypes.util.find_library`. -/
def lib_parallelproj_c_fname (env : String → Option String)
    (findLib : String → Option String) : Option String :=
  libFnameAux (env "PARALLELPROJ_C_LIB") (findLib "parallelproj_c")

inductive InitResult
  | importError (msg : String)
  | loaded (path : String)
deriving DecidableEq

/-- Outcome of the top-level library check of backend.py lines 48–55. -/
def moduleInitAux : Option String → InitResult
  | none => InitResult.importError
      "Cannot find parallelproj c lib. Consider setting the environment variable PARALLELPROJ_C_LIB."
  | some f => InitResult.loaded f

/-- backend.py lines 48–55: if no CPU library was located, module import
raises `ImportError`; otherwise the library is loaded. -/
def moduleInit (env findLib : String → Option String) : InitResult :=
  moduleInitAux (lib_parallelproj_c_fname env findLib)

/-- The projector operations exist only when module initialisation succeeded:
a failed import defines none of them. -/
def moduleOps : InitResult → List String
  | InitResult.importError _ => []
  | InitResult.loaded _ =>
      ["joseph3d_fwd", "joseph3d_back", "joseph3d_fwd_tof_sino",
       "joseph3d_back_tof_sino", "joseph3d_fwd_tof_lm", "joseph3d_back_tof_lm"]

/-! ## Model of the native Joseph 3D projection kernels

Modelled from the spec (§4.1–§4.5): the kernels themselves are compiled
C/CUDA code distributed outside the Python sources of this repository, so the
traversal, the bilinear stencil, and the TOF weights are written here from
the specification text.  Arithmetic is exact (`ℚ`); the two transcendental
primitives of the kernels — the square root used for `‖d‖` and `√2`, and the
Gaussian error function of the TOF weight — are taken as function parameters
`sq` and `erf`, since adjointness holds for any values they return. -/

/-- Modelled from the spec (§3 Image): image dimensions, origin (world
coordinates of the centre of voxel `(0,0,0)`) and voxel sizes. -/
structure ImgGeom where
  n0 : Nat
  n1 : Nat
  n2 : Nat
  org : Fin 3 → ℚ
  vox : Fin 3 → ℚ

abbrev Voxel (g : ImgGeom) := Fin g.n0 × Fin g.n1 × Fin g.n2

def dims (g : ImgGeom) : Fin 3 → Nat :=
  fun a => if a = 0 then g.n0 else if a = 1 then g.n1 else g.n2

def normSq (d : Fin 3 → ℚ) : ℚ := d 0 * d 0 + d 1 * d 1 + d 2 * d 2

/-- Principal axis `argmax |d_a|`, ties broken by the smallest axis index
(spec §4.1 step 2). -/
def pAxis (d : Fin 3 → ℚ) : Fin 3 :=
  if |d 1| > |d 0| then (if |d 2| > |d 1| then 2 else 1)
  else (if |d 2| > |d 0| then 2 else 0)

/-- The two off-axis dimensions of a principal axis, in increasing order. -/
def offAxes (a : Fin 3) : Fin 3 × Fin 3 :=
  if a = 0 then (1, 2) else if a = 1 then (0, 2) else (0, 1)

/-- Low edge of the image bounding box along one axis. -/
def boxLo (g : ImgGeom) (ax : Fin 3) : ℚ := g.org ax - g.vox ax / 2

/-- High edge of the image bounding box along one axis. -/
def boxHi (g : ImgGeom) (ax : Fin 3) : ℚ :=
  g.org ax + ((dims g ax : ℚ) - 1) * g.vox ax + g.vox ax / 2

/-- Ray-parameter interval inside one slab of the bounding box: `none` means
the ray misses the slab, `some none` that it is parallel to it and inside
(unconstrained). -/
def slabIval (x0 d lo hi : ℚ) : Option (Option (ℚ × ℚ)) :=
  if d = 0 then (if lo ≤ x0 ∧ x0 ≤ hi then some none else none)
  else some (some (min ((lo - x0) / d) ((hi - x0) / d),
    max ((lo - x0) / d) ((hi - x0) / d)))

def meetIval : Option (ℚ × ℚ) → Option (ℚ × ℚ) → Option (ℚ × ℚ)
  | none, s => s
  | s, none => s
  | some (a, b), some (c, e) => some (max a c, min b e)

/-- Modelled from the spec (§4.1 step 4): the inclusive voxel plane range
`[i_min, i_max]` along the principal axis, obtained by intersecting the ray
with the image bounding box; empty when the intersection is empty. -/
def planeRange (g : ImgGeom) (x0 d : Fin 3 → ℚ) (a : Fin 3) : List ℤ :=
  if d a = 0 then [] else
  match slabIval (x0 (offAxes a).1) (d (offAxes a).1)
      (boxLo g (offAxes a).1) (boxHi g (offAxes a).1),
    slabIval (x0 (offAxes a).2) (d (offAxes a).2)
      (boxLo g (offAxes a).2) (boxHi g (offAxes a).2) with
  | none, _ => []
  | some _, none => []
  | some s1, some s2 =>
    let tA1 := (boxLo g a - x0 a) / d a
    let tA2 := (boxHi g a - x0 a) / d a
    match meetIval (meetIval (some (min tA1 tA2, max tA1 tA2)) s1) s2 with
    | none => []
    | some (tlo, thi) =>
      if thi < tlo then [] else
      let iOf : ℚ → ℚ := fun t => (x0 a + t * d a - g.org a) / g.vox a
      let i1 := iOf tlo
      let i2 := iOf thi
      let imin : ℤ := max 0 ⌈min i1 i2⌉
      let imax : ℤ := min ((dims g a : ℤ) - 1) ⌊max i1 i2⌋
      if imax < imin then [] else
      (List.range (imax - imin + 1).toNat).map (fun j => imin + j)

/-- The two taps of the bilinear stencil along one off-axis coordinate, with
weights `1 − frac` and `frac` (spec §4.2: `w = (1 − |u − m|)` on the two
integers surrounding `u`). -/
def taps1 (u : ℚ) : List (ℤ × ℚ) :=
  [(⌊u⌋, 1 - (u - ⌊u⌋)), (⌊u⌋ + 1, u - ⌊u⌋)]

/-- Assembles a 3-D integer voxel index from the plane index on the principal
axis and the two off-axis tap indices. -/
def idxVec (a : Fin 3) (i j k : ℤ) : Fin 3 → ℤ :=
  fun ax => if ax = a then i else if ax = (offAxes a).1 then j else k

/-- Out-of-image taps contribute nothing (spec §4.1, off-plane edge policy):
only indices inside the image become voxels. -/
def toVoxel (g : ImgGeom) (v : Fin 3 → ℤ) : Option (Voxel g) :=
  if h : 0 ≤ v 0 ∧ v 0 < g.n0 ∧ 0 ≤ v 1 ∧ v 1 < g.n1
      ∧ 0 ≤ v 2 ∧ v 2 < g.n2 then
    some (⟨(v 0).toNat, by omega⟩, ⟨(v 1).toNat, by omega⟩,
      ⟨(v 2).toNat, by omega⟩)
  else none

/-- Modelled from the spec (§4.1–§4.2): the plane samples of one LOR.  Each
sample carries the signed world distance of the crossing point from the LOR
midpoint (used by the TOF kernels) and the list of in-image stencil taps
with their geometric weights `step · w_u · w_v`. -/
def lorPlanes (sq : ℚ → ℚ) (g : ImgGeom) (x0 x1 : Fin 3 → ℚ) :
    List (ℚ × List (Voxel g × ℚ)) :=
  let d : Fin 3 → ℚ := fun ax => x1 ax - x0 ax
  let a := pAxis d
  let stp := g.vox a * sq (normSq d) / |d a|
  (planeRange g x0 d a).map (fun i =>
    let t := (g.org a + ((i : ℤ) : ℚ) * g.vox a - x0 a) / d a
    let u := (x0 (offAxes a).1 + t * d (offAxes a).1 - g.org (offAxes a).1)
      / g.vox (offAxes a).1
    let v := (x0 (offAxes a).2 + t * d (offAxes a).2 - g.org (offAxes a).2)
      / g.vox (offAxes a).2
    let tw := (t - 1 / 2) * sq (normSq d)
    (tw,
      (taps1 u).flatMap (fun ju =>
        (taps1 v).flatMap (fun jv =>
          match toVoxel g (idxVec a i ju.1 jv.1) with
          | some vx => [(vx, stp * ju.2 * jv.2)]
          | none => []))))

/-- Modelled from the spec (§4.3): the TOF bin weight
`W = (erf((t − t_b + w/2)/(σ√2)) − erf((t − t_b − w/2)/(σ√2))) / 2`. -/
def tofWeight (erf sq : ℚ → ℚ) (w σ t tb : ℚ) : ℚ :=
  (1 / 2) * (erf ((t - tb + w / 2) / (σ * sq 2))
    - erf ((t - tb - w / 2) / (σ * sq 2)))

/-- Modelled from the spec (§3 TOF configuration): bin width, per-LOR (or
shared, as a constant function) σ and centre offset, truncation radius. -/
structure TofParams (nL : Nat) where
  tofbin_width : ℚ
  sigma_tof : Fin nL → ℚ
  tofcenter_offset : Fin nL → ℚ
  n_sigmas : ℚ

/-- Signed TOF bin index of sinogram bin `j`:
`{−⌊n/2⌋ … +⌊n/2⌋}` for odd `n` (spec §3). -/
def signedBin (ntof : Nat) (j : Fin ntof) : ℤ := (j : ℤ) - (ntof / 2 : Nat)

/-- Sparse traversal entries of the non-TOF kernels: output component, voxel
and geometric weight (spec §4.2). -/
def entriesNT (sq : ℚ → ℚ) (g : ImgGeom) (nL : Nat)
    (xs xe : Fin nL → Fin 3 → ℚ) : List (Fin nL × Voxel g × ℚ) :=
  (List.finRange nL).flatMap (fun k =>
    (lorPlanes sq g (xs k) (xe k)).flatMap (fun pl =>
      pl.2.map (fun e => (k, e.1, e.2))))

/-- Sparse traversal entries of the TOF sinogram kernels: each plane sample
contributes to every TOF bin whose centre lies within
`n_sigmas · σ + w/2` of the sample (spec §4.3–§4.4). -/
def entriesTS (erf sq : ℚ → ℚ) (g : ImgGeom) (nL ntof : Nat)
    (xs xe : Fin nL → Fin 3 → ℚ) (tp : TofParams nL) :
    List ((Fin nL × Fin ntof) × Voxel g × ℚ) :=
  (List.finRange nL).flatMap (fun k =>
    (lorPlanes sq g (xs k) (xe k)).flatMap (fun pl =>
      (List.finRange ntof).flatMap (fun b =>
        let tb := (signedBin ntof b : ℚ) * tp.tofbin_width
          + tp.tofcenter_offset k
        if |pl.1 - tb| ≤ tp.n_sigmas * tp.sigma_tof k + tp.tofbin_width / 2
        then pl.2.map (fun e =>
          ((k, b), e.1,
            e.2 * tofWeight erf sq tp.tofbin_width (tp.sigma_tof k) pl.1 tb))
        else [])))

/-- Sparse traversal entries of the TOF listmode kernels: event `k`
contributes only to its own bin `tof_bin k` (spec §4.5). -/
def entriesLM (erf sq : ℚ → ℚ) (g : ImgGeom) (nL : Nat)
    (xs xe : Fin nL → Fin 3 → ℚ) (tp : TofParams nL)
    (tof_bin : Fin nL → ℤ) : List (Fin nL × Voxel g × ℚ) :=
  (List.finRange nL).flatMap (fun k =>
    (lorPlanes sq g (xs k) (xe k)).flatMap (fun pl =>
      let tb := (tof_bin k : ℚ) * tp.tofbin_width + tp.tofcenter_offset k
      if |pl.1 - tb| ≤ tp.n_sigmas * tp.sigma_tof k + tp.tofbin_width / 2
      then pl.2.map (fun e =>
        (k, e.1,
          e.2 * tofWeight erf sq tp.tofbin_width (tp.sigma_tof k) pl.1 tb))
      else []))

/-- Forward kernel body: fold over the traversal entries accumulating
`w · img[v]` into output component `o` — one accumulation per tap, the
gather of the forward kernels. -/
def applyFwd {O V : Type} [DecidableEq O] (M : List (O × V × ℚ))
    (img : V → ℚ) : O → ℚ :=
  M.foldl
    (fun acc e => fun o =>
      if o = e.1 then acc o + e.2.2 * img e.2.1 else acc o)
    (fun _ => 0)

/-- Back kernel body: the same traversal entries, accumulating `w · y[o]`
into voxel `v` — the atomic adds of the back kernels. -/
def applyBack {O V : Type} [DecidableEq V] (M : List (O × V × ℚ))
    (y : O → ℚ) : V → ℚ :=
  M.foldl
    (fun acc e => fun v =>
      if v = e.2.1 then acc v + e.2.2 * y e.1 else acc v)
    (fun _ => 0)

/-- Modelled from the spec: non-TOF Joseph forward kernel. -/
def joseph3d_fwd_kernel (sq : ℚ → ℚ) (g : ImgGeom) (nL : Nat)
    (xs xe : Fin nL → Fin 3 → ℚ) (img : Voxel g → ℚ) : Fin nL → ℚ :=
  applyFwd (entriesNT sq g nL xs xe) img

/-- Modelled from the spec: non-TOF Joseph back kernel. -/
def joseph3d_back_kernel (sq : ℚ → ℚ) (g : ImgGeom) (nL : Nat)
    (xs xe : Fin nL → Fin 3 → ℚ) (y : Fin nL → ℚ) : Voxel g → ℚ :=
  applyBack (entriesNT sq g nL xs xe) y

/-- Modelled from the spec: TOF sinogram forward kernel. -/
def joseph3d_fwd_tof_sino_kernel (erf sq : ℚ → ℚ) (g : ImgGeom)
    (nL ntof : Nat) (xs xe : Fin nL → Fin 3 → ℚ) (tp : TofParams nL)
    (img : Voxel g → ℚ) : Fin nL × Fin ntof → ℚ :=
  applyFwd (entriesTS erf sq g nL ntof xs xe tp) img

/-- Modelled from the spec: TOF sinogram back kernel. -/
def joseph3d_back_tof_sino_kernel (erf sq : ℚ → ℚ) (g : ImgGeom)
    (nL ntof : Nat) (xs xe : Fin nL → Fin 3 → ℚ) (tp : TofParams nL)
    (y : Fin nL × Fin ntof → ℚ) : Voxel g → ℚ :=
  applyBack (entriesTS erf sq g nL ntof xs xe tp) y

/-- Modelled from the spec: TOF listmode forward kernel. -/
def joseph3d_fwd_tof_lm_kernel (erf sq : ℚ → ℚ) (g : ImgGeom) (nL : Nat)
    (xs xe : Fin nL → Fin 3 → ℚ) (tp : TofParams nL)
    (tof_bin : Fin nL → ℤ) (img : Voxel g → ℚ) : Fin nL → ℚ :=
  applyFwd (entriesLM erf sq g nL xs xe tp tof_bin) img

/-- Modelled from the spec: TOF listmode back kernel. -/
def joseph3d_back_tof_lm_kernel (erf sq : ℚ → ℚ) (g : ImgGeom) (nL : Nat)
    (xs xe : Fin nL → Fin 3 → ℚ) (tp : TofParams nL)
    (tof_bin : Fin nL → ℤ) (y : Fin nL → ℚ) : Voxel g → ℚ :=
  applyBack (entriesLM erf sq g nL xs xe tp tof_bin) y

/-- The inner product of the adjointness test. -/
def dotF {α : Type} [Fintype α] (f h : α → ℚ) : ℚ := ∑ o, f o * h o

/-! ## The point-source TOF test LOR construction
(test_tofsino_joseph.py lines 37–45) -/

/-- The slice assignment `A[:, c] = v` on an `(nLORs, 3)` array. -/
def setCol (A : Nat → Fin 3 → ℚ) (c : Fin 3) (v : ℚ) : Nat → Fin 3 → ℚ :=
  fun k j => if j = c then v else A k j

/-- `xstart = zeros; xstart[:,0] = 0; xstart[:,0] = 0; xstart[:,0] = 100`. -/
def xstartTest : Nat → Fin 3 → ℚ :=
  setCol (setCol (setCol (fun _ _ => 0) 0 0) 0 0) 0 100

/-- `xend = zeros; xend[:,0] = 0; xend[:,0] = 0; xend[:,0] = -100`. -/
def xendTest : Nat → Fin 3 → ℚ :=
  setCol (setCol (setCol (fun _ _ => 0) 0 0) 0 0) 0 (-100)

end Parallelproj

/-! # Lemmas and theorems -/

namespace Parallelproj

/-- Closed form of the partially executed `calc_chunks` loop: after folding
over `List.range k` the list is `[f 0, f 1, …, f k]` with
`f j = j * div + min j rem`. -/
lemma calc_chunks_loop_closed (rem div k : Nat) :
    (List.range k).foldl
      (fun chunks i =>
        chunks ++ [chunks.getD i 0 + (if i < rem then div + 1 else div)])
      [0]
    = (List.range (k + 1)).map (fun j => j * div + min j rem) := by
  induction k with
  | zero => simp [List.range_succ]
  | succ k ih =>
      rw [List.range_succ, List.foldl_append, ih]
      have hget : ((List.range (k + 1)).map
          (fun j => j * div + min j rem)).getD k 0 = k * div + min k rem := by
        rw [List.getD_eq_getElem?_getD]
        simp [List.getElem?_map, List.getElem?_range, Nat.lt_succ_self]
      rw [List.foldl_cons, List.foldl_nil, hget]
      rw [List.range_succ (n := k + 1), List.map_append]
      congr 1
      simp only [List.map_cons, List.map_nil]
      congr 1
      by_cases h : k < rem
      · have h1 : min k rem = k := by omega
        have h2 : min (k + 1) rem = k + 1 := by omega
        simp [h, h1, h2]; ring
      · have h1 : min k rem = rem := by omega
        have h2 : min (k + 1) rem = rem := by omega
        simp [h, h1, h2]; ring

lemma calc_chunks_closed (nLORs num_chunks : Nat) :
    calc_chunks nLORs num_chunks
      = (List.range (num_chunks + 1)).map
          (fun j => j * (nLORs / num_chunks) + min j (nLORs % num_chunks)) := by
  unfold calc_chunks
  exact calc_chunks_loop_closed _ _ _

lemma calc_chunks_getD (n m j : Nat) (hj : j < m + 1) :
    (calc_chunks n m).getD j 0 = j * (n / m) + min j (n % m) := by
  rw [calc_chunks_closed, List.getD_eq_getElem?_getD]
  simp [List.getElem?_range, hj]

/-- C2: for every `nLORs ≥ 0` and `num_chunks ≥ 1`, `calc_chunks` returns a
list of `num_chunks + 1` nondecreasing indices starting at `0` and ending at
`nLORs`, whose first `nLORs % num_chunks` consecutive differences are
`nLORs / num_chunks + 1` and whose remaining differences are
`nLORs / num_chunks`; in particular `calc_chunks 10 3 = [0, 4, 7, 10]`. -/
theorem calc_chunks_correct (n m : Nat) (hm : 1 ≤ m) : chunksSpec n m := by
  have hmod : n % m < m := Nat.mod_lt _ (by omega)
  refine ⟨?_, ?_, ?_, ?_, ?_, by decide⟩
  · rw [calc_chunks_closed]; simp
  · rw [calc_chunks_closed, List.pairwise_map]
    refine (List.pairwise_lt_range _).imp ?_
    intro a b hab
    have h1 : a * (n / m) ≤ b * (n / m) :=
      Nat.mul_le_mul_right _ (Nat.le_of_lt hab)
    have h2 : min a (n % m) ≤ min b (n % m) := by omega
    exact Nat.add_le_add h1 h2
  · rw [calc_chunks_getD n m 0 (by omega)]; simp
  · rw [calc_chunks_closed, List.getLast?_eq_getElem?]
    have hlen : ((List.range (m + 1)).map
        (fun j => j * (n / m) + min j (n % m))).length = m + 1 := by simp
    rw [hlen]
    simp only [Nat.add_sub_cancel, List.getElem?_map, List.getElem?_range,
      Nat.lt_succ_self, Option.map_some]
    have : m * (n / m) + min m (n % m) = n := by
      have h3 : min m (n % m) = n % m := by omega
      rw [h3]
      exact Nat.div_add_mod n m
    simp [List.getElem?_range, Nat.lt_succ_self, this]
  · intro i hi
    rw [calc_chunks_getD n m (i + 1) (by omega), calc_chunks_getD n m i (by omega)]
    have hs : (i + 1) * (n / m) = i * (n / m) + n / m := by ring
    rcases Nat.lt_or_ge i (n % m) with h | h
    · rw [if_pos h]
      have h2 : min (i + 1) (n % m) = min i (n % m) + 1 := by omega
      rw [hs, h2]; ring
    · rw [if_neg (by omega)]
      have h2 : min (i + 1) (n % m) = min i (n % m) := by omega
      rw [hs, h2]; ring

/-- Witness for C2 at the concrete input of the spec's example. -/
theorem calc_chunks_correct_witness : 1 ≤ 3 ∧ chunksSpec 10 3 :=
  ⟨by decide, calc_chunks_correct 10 3 (by decide)⟩

/-! ## Store lemmas -/

lemma getA_append_lt (st : Store) (a : Arr) (j : ArrId) (h : j < st.length) :
    getA (st ++ [a]) j = getA st j := by
  unfold getA
  rw [List.getD_eq_getElem?_getD, List.getD_eq_getElem?_getD,
    List.getElem?_append_left h]

lemma getA_alloc_self (st : Store) (a : Arr) :
    getA (alloc st a).1 (alloc st a).2 = a := by
  unfold alloc getA
  simp [List.getElem?_concat_length]

lemma getA_setData_ne (st : Store) (i : ArrId) (d : List ℚ) (j : ArrId)
    (h : j ≠ i) : getA (setData st i d) j = getA st j := by
  unfold setData getA
  simp [List.getElem?_set_ne (Ne.symm h)]

lemma getA_setData_self (st : Store) (i : ArrId) (d : List ℚ)
    (h : i < st.length) :
    getA (setData st i d) i = { getA st i with data := d } := by
  unfold setData getA
  rw [List.getD_eq_getElem?_getD, List.getElem?_set_self h]
  rfl

lemma getA_setData_oob (st : Store) (i : ArrId) (d : List ℚ)
    (h : st.length ≤ i) : setData st i d = st := by
  unfold setData
  exact List.set_eq_of_length_le h

/-- `setData` never changes shape, dtype, namespace or device of any array. -/
lemma getA_setData_meta (st : Store) (i : ArrId) (d : List ℚ) (j : ArrId) :
    (getA (setData st i d) j).shape = (getA st j).shape
    ∧ (getA (setData st i d) j).dtype = (getA st j).dtype
    ∧ (getA (setData st i d) j).ns = (getA st j).ns
    ∧ (getA (setData st i d) j).device = (getA st j).device := by
  by_cases hij : j = i
  · subst hij
    by_cases hl : j < st.length
    · rw [getA_setData_self st j d hl]
      exact ⟨rfl, rfl, rfl, rfl⟩
    · have hle : st.length ≤ j := Nat.le_of_not_lt hl
      rw [getA_setData_oob st j d hle]
      exact ⟨rfl, rfl, rfl, rfl⟩
  · rw [getA_setData_ne st i d j hij]
    exact ⟨rfl, rfl, rfl, rfl⟩

lemma setData_length (st : Store) (i : ArrId) (d : List ℚ) :
    (setData st i d).length = st.length := by
  unfold setData
  exact List.length_set ..

/-- Metadata of the array returned by `xpAsarray`: same shape, dtype and
values as the converted array, namespace and device as requested. -/
lemma xpAsarray_meta (st : Store) (i : ArrId) (ns : NSpace) (dev : Device) :
    getA (xpAsarray st i ns dev).1 (xpAsarray st i ns dev).2
      = { getA st i with ns := ns, device := dev } := by
  unfold xpAsarray
  by_cases h : (getA st i).ns = ns ∧ (getA st i).device = dev
  · rw [if_pos h]
    obtain ⟨h1, h2⟩ := h
    cases hA : getA st i
    simp only
    rw [hA] at h1 h2
    simp only at h1 h2
    rw [h1, h2]
  · rw [if_neg h]
    exact getA_alloc_self ..

/-- `xpAsarray` never changes existing store entries. -/
lemma xpAsarray_preserves (st : Store) (i : ArrId) (ns : NSpace)
    (dev : Device) (j : ArrId) (hj : j < st.length) :
    getA (xpAsarray st i ns dev).1 j = getA st j := by
  unfold xpAsarray
  by_cases h : (getA st i).ns = ns ∧ (getA st i).device = dev
  · rw [if_pos h]
  · rw [if_neg h]
    exact getA_append_lt st _ j hj

/-! ## Lemmas about the hybrid chunk loops -/

/-- The forward chunk loop only writes the output payload array: every other
store entry is unchanged. -/
lemma runFwdChunks_frame (cfg : Cfg) (ic : List Nat) (xs xe : List ℚ)
    (outId : ArrId) (l : List Nat) (st : Store) (j : ArrId) (hj : j ≠ outId) :
    getA (runFwdChunks cfg ic xs xe outId l st).st j = getA st j := by
  induction l generalizing st with
  | nil => rfl
  | cons i rest ih =>
      unfold runFwdChunks
      cases cfg.fwdChunkFail i with
      | some e => rfl
      | none =>
          simp only
          rw [ih]
          exact getA_setData_ne _ _ _ _ hj

/-- The forward chunk loop preserves shape, dtype, namespace and device of
every store entry (it only overwrites payload data). -/
lemma runFwdChunks_meta (cfg : Cfg) (ic : List Nat) (xs xe : List ℚ)
    (outId : ArrId) (l : List Nat) (st : Store) (j : ArrId) :
    (getA (runFwdChunks cfg ic xs xe outId l st).st j).shape
        = (getA st j).shape
    ∧ (getA (runFwdChunks cfg ic xs xe outId l st).st j).dtype
        = (getA st j).dtype
    ∧ (getA (runFwdChunks cfg ic xs xe outId l st).st j).ns = (getA st j).ns
    ∧ (getA (runFwdChunks cfg ic xs xe outId l st).st j).device
        = (getA st j).device := by
  induction l generalizing st with
  | nil => exact ⟨rfl, rfl, rfl, rfl⟩
  | cons i rest ih =>
      unfold runFwdChunks
      cases cfg.fwdChunkFail i with
      | some e => exact ⟨rfl, rfl, rfl, rfl⟩
      | none =>
          simp only
          obtain ⟨s1, s2, s3, s4⟩ := ih (setData st outId
            (writeSlice (getA st outId).data (ic.getD i 0) (ic.getD (i + 1) 0)
              (cfg.kernelOut (Ev.chunkFwdKernel i)
                [(xs.drop (3 * ic.getD i 0)).take
                    (3 * (ic.getD (i + 1) 0 - ic.getD i 0)),
                  (xe.drop (3 * ic.getD i 0)).take
                    (3 * (ic.getD (i + 1) 0 - ic.getD i 0))])))
          obtain ⟨m1, m2, m3, m4⟩ := getA_setData_meta st outId
            (writeSlice (getA st outId).data (ic.getD i 0) (ic.getD (i + 1) 0)
              (cfg.kernelOut (Ev.chunkFwdKernel i)
                [(xs.drop (3 * ic.getD i 0)).take
                    (3 * (ic.getD (i + 1) 0 - ic.getD i 0)),
                  (xe.drop (3 * ic.getD i 0)).take
                    (3 * (ic.getD (i + 1) 0 - ic.getD i 0))])) j
          exact ⟨s1.trans m1, s2.trans m2, s3.trans m3, s4.trans m4⟩

/-- Every event traced by the forward chunk loop is a chunk kernel launch. -/
lemma runFwdChunks_tr (cfg : Cfg) (ic : List Nat) (xs xe : List ℚ)
    (outId : ArrId) (l : List Nat) (st : Store) (ev : Ev)
    (hev : ev ∈ (runFwdChunks cfg ic xs xe outId l st).tr) :
    ∃ i, ev = Ev.chunkFwdKernel i := by
  induction l generalizing st with
  | nil => cases hev
  | cons i rest ih =>
      unfold runFwdChunks at hev
      cases h : cfg.fwdChunkFail i with
      | some e =>
          rw [h] at hev
          simp only [List.mem_singleton] at hev
          exact ⟨i, hev⟩
      | none =>
          rw [h] at hev
          simp only [List.mem_cons] at hev
          rcases hev with h1 | h1
          · exact ⟨i, h1⟩
          · exact ih _ h1

/-- The forward chunk loop does not change the number of store entries. -/
lemma runFwdChunks_length (cfg : Cfg) (ic : List Nat) (xs xe : List ℚ)
    (outId : ArrId) (l : List Nat) (st : Store) :
    (runFwdChunks cfg ic xs xe outId l st).st.length = st.length := by
  induction l generalizing st with
  | nil => rfl
  | cons i rest ih =>
      unfold runFwdChunks
      cases cfg.fwdChunkFail i with
      | some e => rfl
      | none =>
          simp only
          rw [ih, setData_length]

/-- Every event traced by the back chunk loop is a chunk kernel launch. -/
lemma runBackChunks_tr (cfg : Cfg) (l : List Nat) (ev : Ev)
    (hev : ev ∈ (runBackChunks cfg l).1) :
    ∃ i, ev = Ev.chunkBackKernel i := by
  induction l with
  | nil => cases hev
  | cons i rest ih =>
      unfold runBackChunks at hev
      cases h : cfg.backChunkFail i with
      | some e =>
          rw [h] at hev
          simp only [List.mem_singleton] at hev
          exact ⟨i, hev⟩
      | none =>
          rw [h] at hev
          simp only [List.mem_cons] at hev
          rcases hev with h1 | h1
          · exact ⟨i, h1⟩
          · exact ih h1

/-! ## Metadata of the adapter results -/

lemma finishDirect_ok_meta (stA : Store) (outId : ArrId) (ns : NSpace)
    (dev : Device) (ev : Ev) (rId : ArrId)
    (h : (finishDirect stA outId ns dev ev).res = Except.ok rId) :
    (getA (finishDirect stA outId ns dev ev).st rId).shape
        = (getA stA outId).shape
    ∧ (getA (finishDirect stA outId ns dev ev).st rId).dtype
        = (getA stA outId).dtype
    ∧ (getA (finishDirect stA outId ns dev ev).st rId).ns = ns
    ∧ (getA (finishDirect stA outId ns dev ev).st rId).device = dev := by
  unfold finishDirect at h ⊢
  simp only [Except.ok.injEq] at h
  subst h
  rw [xpAsarray_meta]
  exact ⟨rfl, rfl, rfl, rfl⟩

lemma finishFwdHybrid_ok_meta (stR : Store) (trR : List Ev) (outId : ArrId)
    (ns : NSpace) (dev : Device) (err : Option PyErr) (rId : ArrId)
    (h : (finishFwdHybrid stR trR outId ns dev err).res = Except.ok rId) :
    (getA (finishFwdHybrid stR trR outId ns dev err).st rId).shape
        = (getA stR outId).shape
    ∧ (getA (finishFwdHybrid stR trR outId ns dev err).st rId).dtype
        = (getA stR outId).dtype
    ∧ (getA (finishFwdHybrid stR trR outId ns dev err).st rId).ns = ns
    ∧ (getA (finishFwdHybrid stR trR outId ns dev err).st rId).device
        = dev := by
  cases err with
  | some e => simp [finishFwdHybrid] at h
  | none =>
      simp only [finishFwdHybrid, Except.ok.injEq] at h
      subst h
      simp [finishFwdHybrid, xpAsarray_meta]

lemma finishBackHybrid_ok_meta (cfg : Cfg) (st1 : Store) (trc : List Ev)
    (outId : ArrId) (ns : NSpace) (dev : Device) (err : Option PyErr)
    (rId : ArrId)
    (h : (finishBackHybrid cfg st1 trc outId ns dev err).res
        = Except.ok rId) :
    (getA (finishBackHybrid cfg st1 trc outId ns dev err).st rId).shape
        = (getA st1 outId).shape
    ∧ (getA (finishBackHybrid cfg st1 trc outId ns dev err).st rId).dtype
        = (getA st1 outId).dtype
    ∧ (getA (finishBackHybrid cfg st1 trc outId ns dev err).st rId).ns = ns
    ∧ (getA (finishBackHybrid cfg st1 trc outId ns dev err).st rId).device
        = dev := by
  cases err with
  | some e => simp [finishBackHybrid] at h
  | none =>
      simp only [finishBackHybrid, Except.ok.injEq] at h
      subst h
      refine ⟨?_, ?_, ?_, ?_⟩ <;>
        simp [finishBackHybrid, xpAsarray_meta, getA_setData_meta]

/-- On any normal return, the array returned by `joseph3d_fwd` has shape
`xstart.shape[:-1]`, dtype float32, and the namespace and device of the
primary input `img`. -/
lemma joseph3d_fwd_ok_meta (cfg : Cfg) (st : Store)
    (xstart xend img img_origin voxsize : ArrId) (tpb nc : Nat) (rId : ArrId)
    (h : (joseph3d_fwd cfg st xstart xend img img_origin voxsize tpb nc).res
        = Except.ok rId) :
    (getA (joseph3d_fwd cfg st xstart xend img img_origin voxsize tpb nc).st
        rId).shape = (getA st xstart).shape.dropLast
    ∧ (getA (joseph3d_fwd cfg st xstart xend img img_origin voxsize tpb
        nc).st rId).dtype = DType.float32
    ∧ (getA (joseph3d_fwd cfg st xstart xend img img_origin voxsize tpb
        nc).st rId).ns = (getA st img).ns
    ∧ (getA (joseph3d_fwd cfg st xstart xend img img_origin voxsize tpb
        nc).st rId).device = (getA st img).device := by
  simp only [joseph3d_fwd] at h ⊢
  by_cases hc : is_cuda_array (getA st img) = true
  · rw [if_pos hc] at h ⊢
    obtain ⟨s1, s2, s3, s4⟩ := finishDirect_ok_meta _ _ _ _ _ _ h
    refine ⟨?_, ?_, s3, s4⟩
    · rw [s1, (getA_setData_meta _ _ _ _).1, getA_alloc_self]
    · rw [s2, (getA_setData_meta _ _ _ _).2.1, getA_alloc_self]
  · rw [if_neg hc] at h ⊢
    by_cases hn : 0 < cfg.nvcd
    · rw [if_pos hn] at h ⊢
      obtain ⟨s1, s2, s3, s4⟩ := finishFwdHybrid_ok_meta _ _ _ _ _ _ _ h
      refine ⟨?_, ?_, s3, s4⟩
      · rw [s1, (runFwdChunks_meta _ _ _ _ _ _ _ _).1, getA_alloc_self]
      · rw [s2, (runFwdChunks_meta _ _ _ _ _ _ _ _).2.1, getA_alloc_self]
    · rw [if_neg hn] at h ⊢
      obtain ⟨s1, s2, s3, s4⟩ := finishDirect_ok_meta _ _ _ _ _ _ h
      refine ⟨?_, ?_, s3, s4⟩
      · rw [s1, (getA_setData_meta _ _ _ _).1, getA_alloc_self]
      · rw [s2, (getA_setData_meta _ _ _ _).2.1, getA_alloc_self]

/-- On any normal return, the array returned by `joseph3d_back` has shape
`img_shape`, dtype float32, and the namespace and device of the primary
input `img_fwd`. -/
lemma joseph3d_back_ok_meta (cfg : Cfg) (st : Store) (xstart xend : ArrId)
    (img_shape : List Nat) (img_origin voxsize img_fwd : ArrId)
    (tpb nc : Nat) (rId : ArrId)
    (h : (joseph3d_back cfg st xstart xend img_shape img_origin voxsize
        img_fwd tpb nc).res = Except.ok rId) :
    (getA (joseph3d_back cfg st xstart xend img_shape img_origin voxsize
        img_fwd tpb nc).st rId).shape = img_shape
    ∧ (getA (joseph3d_back cfg st xstart xend img_shape img_origin voxsize
        img_fwd tpb nc).st rId).dtype = DType.float32
    ∧ (getA (joseph3d_back cfg st xstart xend img_shape img_origin voxsize
        img_fwd tpb nc).st rId).ns = (getA st img_fwd).ns
    ∧ (getA (joseph3d_back cfg st xstart xend img_shape img_origin voxsize
        img_fwd tpb nc).st rId).device = (getA st img_fwd).device := by
  simp only [joseph3d_back] at h ⊢
  by_cases hc : is_cuda_array (getA st img_fwd) = true
  · rw [if_pos hc] at h ⊢
    obtain ⟨s1, s2, s3, s4⟩ := finishDirect_ok_meta _ _ _ _ _ _ h
    refine ⟨?_, ?_, s3, s4⟩
    · rw [s1, (getA_setData_meta _ _ _ _).1, getA_alloc_self]
    · rw [s2, (getA_setData_meta _ _ _ _).2.1, getA_alloc_self]
  · rw [if_neg hc] at h ⊢
    by_cases hn : 0 < cfg.nvcd
    · rw [if_pos hn] at h ⊢
      obtain ⟨s1, s2, s3, s4⟩ := finishBackHybrid_ok_meta _ _ _ _ _ _ _ _ h
      refine ⟨?_, ?_, s3, s4⟩
      · rw [s1, getA_alloc_self]
      · rw [s2, getA_alloc_self]
    · rw [if_neg hn] at h ⊢
      obtain ⟨s1, s2, s3, s4⟩ := finishDirect_ok_meta _ _ _ _ _ _ h
      refine ⟨?_, ?_, s3, s4⟩
      · rw [s1, (getA_setData_meta _ _ _ _).1, getA_alloc_self]
      · rw [s2, (getA_setData_meta _ _ _ _).2.1, getA_alloc_self]

/-! ## Frame lemmas: the adapter never writes to pre-existing arrays -/

lemma alloc_length (st : Store) (a : Arr) :
    (alloc st a).1.length = st.length + 1 := by
  simp [alloc]

lemma finishDirect_frame (stA : Store) (outId : ArrId) (ns : NSpace)
    (dev : Device) (ev : Ev) (j : ArrId) (hj : j < stA.length) :
    getA (finishDirect stA outId ns dev ev).st j = getA stA j :=
  xpAsarray_preserves stA outId ns dev j hj

lemma finishFwdHybrid_frame (stR : Store) (trR : List Ev) (outId : ArrId)
    (ns : NSpace) (dev : Device) (err : Option PyErr) (j : ArrId)
    (hj : j < stR.length) :
    getA (finishFwdHybrid stR trR outId ns dev err).st j = getA stR j := by
  cases err with
  | some e => rfl
  | none => exact xpAsarray_preserves stR outId ns dev j hj

lemma finishBackHybrid_frame (cfg : Cfg) (st1 : Store) (trc : List Ev)
    (outId : ArrId) (ns : NSpace) (dev : Device) (err : Option PyErr)
    (j : ArrId) (hj : j < st1.length) (hout : j ≠ outId) :
    getA (finishBackHybrid cfg st1 trc outId ns dev err).st j
      = getA st1 j := by
  cases err with
  | some e => rfl
  | none =>
      have h1 : getA (xpAsarray
          (setData st1 outId (cfg.kernelOut Ev.getFromDevice [])) outId ns
          dev).1 j
          = getA (setData st1 outId (cfg.kernelOut Ev.getFromDevice [])) j :=
        xpAsarray_preserves _ outId ns dev j (by rw [setData_length]; exact hj)
      exact h1.trans (getA_setData_ne st1 outId _ j hout)

/-- Frame property of the whole non-chunked path: allocate, kernel write,
convert back — pre-existing entries untouched. -/
lemma directPath_frame (st : Store) (a : Arr) (d : List ℚ) (ns : NSpace)
    (dev : Device) (ev : Ev) (j : ArrId) (hj : j < st.length) :
    getA (finishDirect (setData (alloc st a).1 (alloc st a).2 d)
        (alloc st a).2 ns dev ev).st j = getA st j := by
  have h1 : j < (setData (alloc st a).1 (alloc st a).2 d).length := by
    rw [setData_length, alloc_length]; exact Nat.lt_succ_of_lt hj
  rw [finishDirect_frame (setData (alloc st a).1 (alloc st a).2 d)
    (alloc st a).2 ns dev ev j h1]
  have hne : j ≠ (alloc st a).2 := Nat.ne_of_lt hj
  rw [getA_setData_ne (alloc st a).1 (alloc st a).2 d j hne]
  exact getA_append_lt st a j hj

/-- Frame property of the whole hybrid forward path. -/
lemma fwdHybridPath_frame (cfg : Cfg) (st : Store) (a : Arr) (ic : List Nat)
    (xs xe : List ℚ) (l : List Nat) (ns : NSpace) (dev : Device) (j : ArrId)
    (hj : j < st.length) :
    getA (finishFwdHybrid
        (runFwdChunks cfg ic xs xe (alloc st a).2 l (alloc st a).1).st
        (runFwdChunks cfg ic xs xe (alloc st a).2 l (alloc st a).1).tr
        (alloc st a).2 ns dev
        (runFwdChunks cfg ic xs xe (alloc st a).2 l (alloc st a).1).err).st j
      = getA st j := by
  have h1 : j < (runFwdChunks cfg ic xs xe (alloc st a).2 l
      (alloc st a).1).st.length := by
    rw [runFwdChunks_length, alloc_length]; exact Nat.lt_succ_of_lt hj
  rw [finishFwdHybrid_frame
    (runFwdChunks cfg ic xs xe (alloc st a).2 l (alloc st a).1).st
    (runFwdChunks cfg ic xs xe (alloc st a).2 l (alloc st a).1).tr
    (alloc st a).2 ns dev
    (runFwdChunks cfg ic xs xe (alloc st a).2 l (alloc st a).1).err j h1]
  have hne : j ≠ (alloc st a).2 := Nat.ne_of_lt hj
  rw [runFwdChunks_frame cfg ic xs xe (alloc st a).2 l (alloc st a).1 j hne]
  exact getA_append_lt st a j hj

/-- Frame property of the whole hybrid back path. -/
lemma backHybridPath_frame (cfg : Cfg) (st : Store) (a : Arr)
    (trc : List Ev) (ns : NSpace) (dev : Device) (err : Option PyErr)
    (j : ArrId) (hj : j < st.length) :
    getA (finishBackHybrid cfg (alloc st a).1 trc (alloc st a).2 ns dev
        err).st j = getA st j := by
  have h1 : j < (alloc st a).1.length := by
    rw [alloc_length]; exact Nat.lt_succ_of_lt hj
  have hne : j ≠ (alloc st a).2 := Nat.ne_of_lt hj
  rw [finishBackHybrid_frame cfg (alloc st a).1 trc (alloc st a).2 ns dev err
    j h1 hne]
  exact getA_append_lt st a j hj

/-- `joseph3d_fwd` leaves every pre-existing store entry unchanged: caller
arrays keep exactly the values they held before the call. -/
lemma joseph3d_fwd_frame (cfg : Cfg) (st : Store)
    (xstart xend img img_origin voxsize : ArrId) (tpb nc : Nat) (j : ArrId)
    (hj : j < st.length) :
    getA (joseph3d_fwd cfg st xstart xend img img_origin voxsize tpb nc).st j
      = getA st j := by
  simp only [joseph3d_fwd]
  by_cases hc : is_cuda_array (getA st img) = true
  · rw [if_pos hc]
    exact directPath_frame st _ _ _ _ _ j hj
  · rw [if_neg hc]
    by_cases hn : 0 < cfg.nvcd
    · rw [if_pos hn]
      exact fwdHybridPath_frame cfg st _ _ _ _ _ _ _ j hj
    · rw [if_neg hn]
      exact directPath_frame st _ _ _ _ _ j hj

/-- `joseph3d_back` leaves every pre-existing store entry unchanged. -/
lemma joseph3d_back_frame (cfg : Cfg) (st : Store) (xstart xend : ArrId)
    (img_shape : List Nat) (img_origin voxsize img_fwd : ArrId)
    (tpb nc : Nat) (j : ArrId) (hj : j < st.length) :
    getA (joseph3d_back cfg st xstart xend img_shape img_origin voxsize
        img_fwd tpb nc).st j = getA st j := by
  simp only [joseph3d_back]
  by_cases hc : is_cuda_array (getA st img_fwd) = true
  · rw [if_pos hc]
    exact directPath_frame st _ _ _ _ _ j hj
  · rw [if_neg hc]
    by_cases hn : 0 < cfg.nvcd
    · rw [if_pos hn]
      exact backHybridPath_frame cfg st _ _ _ _ _ j hj
    · rw [if_neg hn]
      exact directPath_frame st _ _ _ _ _ j hj

/-! ## Claim theorems: shapes, dtypes, framework of the results -/

/-- C3: for every call with `xstart` of shape `(nLORs, 3)`, `joseph3d_fwd`
returns an array of shape `(nLORs,)` with 32-bit float elements; and for
every call with `img_shape = (n0, n1, n2)`, `joseph3d_back` returns an array
of shape `(n0, n1, n2)` with 32-bit float elements. -/
theorem joseph3d_output_shapes :
    (∀ cfg st xstart xend img img_origin voxsize tpb nc n rId,
      (getA st xstart).shape = [n, 3] →
      (joseph3d_fwd cfg st xstart xend img img_origin voxsize tpb nc).res
          = Except.ok rId →
      (getA (joseph3d_fwd cfg st xstart xend img img_origin voxsize tpb
          nc).st rId).shape = [n]
      ∧ (getA (joseph3d_fwd cfg st xstart xend img img_origin voxsize tpb
          nc).st rId).dtype = DType.float32)
    ∧ (∀ cfg st xstart xend n0 n1 n2 img_origin voxsize img_fwd tpb nc rId,
      (joseph3d_back cfg st xstart xend [n0, n1, n2] img_origin voxsize
          img_fwd tpb nc).res = Except.ok rId →
      (getA (joseph3d_back cfg st xstart xend [n0, n1, n2] img_origin voxsize
          img_fwd tpb nc).st rId).shape = [n0, n1, n2]
      ∧ (getA (joseph3d_back cfg st xstart xend [n0, n1, n2] img_origin
          voxsize img_fwd tpb nc).st rId).dtype = DType.float32) := by
  constructor
  · intro cfg st xstart xend img img_origin voxsize tpb nc n rId hsh h
    obtain ⟨s1, s2, _, _⟩ :=
      joseph3d_fwd_ok_meta cfg st xstart xend img img_origin voxsize tpb nc
        rId h
    refine ⟨?_, s2⟩
    rw [s1, hsh]
    rfl
  · intro cfg st xstart xend n0 n1 n2 img_origin voxsize img_fwd tpb nc rId h
    obtain ⟨s1, s2, _, _⟩ :=
      joseph3d_back_ok_meta cfg st xstart xend [n0, n1, n2] img_origin
        voxsize img_fwd tpb nc rId h
    exact ⟨s1, s2⟩

/-- Witness for C3 at a concrete store (2 LORs, a `(1,1,1)` image). -/
theorem joseph3d_output_shapes_witness :
    ((getA stEx 0).shape = [2, 3]
      ∧ (joseph3d_fwd cfg0 stEx 0 1 2 3 4 32 1).res = Except.ok 6
      ∧ (getA (joseph3d_fwd cfg0 stEx 0 1 2 3 4 32 1).st 6).shape = [2]
      ∧ (getA (joseph3d_fwd cfg0 stEx 0 1 2 3 4 32 1).st 6).dtype
          = DType.float32)
    ∧ ((joseph3d_back cfg0 stEx 0 1 [1, 1, 1] 3 4 5 32 1).res = Except.ok 6
      ∧ (getA (joseph3d_back cfg0 stEx 0 1 [1, 1, 1] 3 4 5 32 1).st 6).shape
          = [1, 1, 1]
      ∧ (getA (joseph3d_back cfg0 stEx 0 1 [1, 1, 1] 3 4 5 32 1).st 6).dtype
          = DType.float32) :=
  ⟨⟨rfl, rfl,
    (joseph3d_output_shapes.1 cfg0 stEx 0 1 2 3 4 32 1 2 6 rfl rfl).1,
    (joseph3d_output_shapes.1 cfg0 stEx 0 1 2 3 4 32 1 2 6 rfl rfl).2⟩,
   ⟨rfl,
    (joseph3d_output_shapes.2 cfg0 stEx 0 1 1 1 1 3 4 5 32 1 6 rfl).1,
    (joseph3d_output_shapes.2 cfg0 stEx 0 1 1 1 1 3 4 5 32 1 6 rfl).2⟩⟩

/-- C4: `joseph3d_fwd` returns its result converted to the framework and
device of the primary input `img`, and `joseph3d_back` to the framework and
device of the primary input `img_fwd`, whatever frameworks the other
arguments use. -/
theorem joseph3d_result_framework :
    (∀ cfg st xstart xend img img_origin voxsize tpb nc rId,
      (joseph3d_fwd cfg st xstart xend img img_origin voxsize tpb nc).res
          = Except.ok rId →
      (getA (joseph3d_fwd cfg st xstart xend img img_origin voxsize tpb
          nc).st rId).ns = (getA st img).ns
      ∧ (getA (joseph3d_fwd cfg st xstart xend img img_origin voxsize tpb
          nc).st rId).device = (getA st img).device)
    ∧ (∀ cfg st xstart xend img_shape img_origin voxsize img_fwd tpb nc rId,
      (joseph3d_back cfg st xstart xend img_shape img_origin voxsize img_fwd
          tpb nc).res = Except.ok rId →
      (getA (joseph3d_back cfg st xstart xend img_shape img_origin voxsize
          img_fwd tpb nc).st rId).ns = (getA st img_fwd).ns
      ∧ (getA (joseph3d_back cfg st xstart xend img_shape img_origin voxsize
          img_fwd tpb nc).st rId).device = (getA st img_fwd).device) := by
  constructor
  · intro cfg st xstart xend img img_origin voxsize tpb nc rId h
    obtain ⟨_, _, s3, s4⟩ :=
      joseph3d_fwd_ok_meta cfg st xstart xend img img_origin voxsize tpb nc
        rId h
    exact ⟨s3, s4⟩
  · intro cfg st xstart xend img_shape img_origin voxsize img_fwd tpb nc rId h
    obtain ⟨_, _, s3, s4⟩ :=
      joseph3d_back_ok_meta cfg st xstart xend img_shape img_origin voxsize
        img_fwd tpb nc rId h
    exact ⟨s3, s4⟩

/-- Witness for C4 at a concrete store. -/
theorem joseph3d_result_framework_witness :
    ((joseph3d_fwd cfg0 stEx 0 1 2 3 4 32 1).res = Except.ok 6
      ∧ (getA (joseph3d_fwd cfg0 stEx 0 1 2 3 4 32 1).st 6).ns
          = (getA stEx 2).ns
      ∧ (getA (joseph3d_fwd cfg0 stEx 0 1 2 3 4 32 1).st 6).device
          = (getA stEx 2).device)
    ∧ ((joseph3d_back cfg0 stEx 0 1 [1, 1, 1] 3 4 5 32 1).res = Except.ok 6
      ∧ (getA (joseph3d_back cfg0 stEx 0 1 [1, 1, 1] 3 4 5 32 1).st 6).ns
          = (getA stEx 5).ns
      ∧ (getA (joseph3d_back cfg0 stEx 0 1 [1, 1, 1] 3 4 5 32 1).st
          6).device = (getA stEx 5).device) :=
  ⟨⟨rfl,
    (joseph3d_result_framework.1 cfg0 stEx 0 1 2 3 4 32 1 6 rfl).1,
    (joseph3d_result_framework.1 cfg0 stEx 0 1 2 3 4 32 1 6 rfl).2⟩,
   ⟨rfl,
    (joseph3d_result_framework.2 cfg0 stEx 0 1 [1, 1, 1] 3 4 5 32 1 6 rfl).1,
    (joseph3d_result_framework.2 cfg0 stEx 0 1 [1, 1, 1] 3 4 5 32 1 6
      rfl).2⟩⟩

/-- C8: `joseph3d_fwd` and `joseph3d_back` never mutate a caller-supplied
array: every store entry existing before the call holds exactly the same
record (shape, dtype, namespace, device and element values) afterwards; all
casts and kernel writes target arrays allocated inside the call. -/
theorem joseph3d_no_caller_mutation :
    ∀ cfg st xstart xend img img_origin voxsize img_shape img_fwd tpb nc
      (j : ArrId), j < st.length →
      getA (joseph3d_fwd cfg st xstart xend img img_origin voxsize tpb
          nc).st j = getA st j
      ∧ getA (joseph3d_back cfg st xstart xend img_shape img_origin voxsize
          img_fwd tpb nc).st j = getA st j :=
  fun cfg st xstart xend img img_origin voxsize img_shape img_fwd tpb nc j
      hj =>
    ⟨joseph3d_fwd_frame cfg st xstart xend img img_origin voxsize tpb nc j
        hj,
     joseph3d_back_frame cfg st xstart xend img_shape img_origin voxsize
        img_fwd tpb nc j hj⟩

/-- Witness for C8: caller array 0 is untouched by a concrete forward and
back call. -/
theorem joseph3d_no_caller_mutation_witness :
    0 < stEx.length
    ∧ (getA (joseph3d_fwd cfg0 stEx 0 1 2 3 4 32 1).st 0 = getA stEx 0
      ∧ getA (joseph3d_back cfg0 stEx 0 1 [1, 1, 1] 3 4 5 32 1).st 0
          = getA stEx 0) :=
  ⟨by decide,
   joseph3d_no_caller_mutation cfg0 stEx 0 1 2 3 4 [1, 1, 1] 5 32 1 0
     (by decide)⟩

/-! ## Claim theorems: validation before dispatch -/

lemma finishFwdHybrid_tr_head (stR : Store) (trR : List Ev) (outId : ArrId)
    (ns : NSpace) (dev : Device) (err : Option PyErr) :
    ∃ restTr, (finishFwdHybrid stR trR outId ns dev err).tr
      = Ev.copyToAllDevices :: restTr := by
  cases err with
  | some e => exact ⟨trR, rfl⟩
  | none => exact ⟨trR ++ [Ev.freeAllDevices], rfl⟩

lemma finishBackHybrid_tr_head (cfg : Cfg) (st1 : Store) (trc : List Ev)
    (outId : ArrId) (ns : NSpace) (dev : Device) (err : Option PyErr) :
    ∃ restTr, (finishBackHybrid cfg st1 trc outId ns dev err).tr
      = Ev.copyToAllDevices :: restTr := by
  cases err with
  | some e => exact ⟨trc, rfl⟩
  | none =>
      exact ⟨trc ++ [Ev.sumOnFirstDevice, Ev.getFromDevice,
        Ev.freeAllDevices], rfl⟩

/-- C5 counterexample: the adapter performs no validation.  At a store whose
payload (id 5) has length 5 while `xstart` implies 2 LORs, `joseph3d_back`
raises nothing: it runs the native kernel and returns normally. -/
theorem joseph3d_back_no_validation_cex :
    (getA stEx 0).shape = [2, 3]
    ∧ (getA stEx 0).shape.prod / 3 = 2
    ∧ (getA stEx 5).shape = [5]
    ∧ (getA stEx 5).data.length = 5
    ∧ (joseph3d_back cfg0 stEx 0 1 [1, 1, 1] 3 4 5 32 1).res = Except.ok 6
    ∧ (joseph3d_back cfg0 stEx 0 1 [1, 1, 1] 3 4 5 32 1).tr
        = [Ev.cBackKernel] :=
  ⟨rfl, rfl, rfl, rfl, rfl, rfl⟩

/-- C5 amended: the adapter performs no shape, dtype or contiguity
validation and raises no typed failure ahead of native dispatch: with no
visible CUDA device, every host call — whatever the shapes of the inputs,
including a payload whose length differs from the number of LORs implied by
`xstart` — launches the C kernel and returns normally; and in the hybrid
path the first native action of every call is the device copy followed by
the chunk launches, with no validation step before it. -/
theorem adapter_validation_absent :
    (∀ cfg st xstart xend img img_origin voxsize tpb nc,
      cfg.nvcd = 0 → is_cuda_array (getA st img) = false →
      isOkRes (joseph3d_fwd cfg st xstart xend img img_origin voxsize tpb
          nc).res = true
      ∧ (joseph3d_fwd cfg st xstart xend img img_origin voxsize tpb nc).tr
          = [Ev.cFwdKernel])
    ∧ (∀ cfg st xstart xend img_shape img_origin voxsize img_fwd tpb nc,
      cfg.nvcd = 0 → is_cuda_array (getA st img_fwd) = false →
      isOkRes (joseph3d_back cfg st xstart xend img_shape img_origin voxsize
          img_fwd tpb nc).res = true
      ∧ (joseph3d_back cfg st xstart xend img_shape img_origin voxsize
          img_fwd tpb nc).tr = [Ev.cBackKernel])
    ∧ (∀ cfg st xstart xend img img_origin voxsize tpb nc,
      is_cuda_array (getA st img) = false → 0 < cfg.nvcd →
      ∃ restTr, (joseph3d_fwd cfg st xstart xend img img_origin voxsize tpb
          nc).tr = Ev.copyToAllDevices :: restTr)
    ∧ (∀ cfg st xstart xend img_shape img_origin voxsize img_fwd tpb nc,
      is_cuda_array (getA st img_fwd) = false → 0 < cfg.nvcd →
      ∃ restTr, (joseph3d_back cfg st xstart xend img_shape img_origin
          voxsize img_fwd tpb nc).tr = Ev.copyToAllDevices :: restTr) := by
  refine ⟨?_, ?_, ?_, ?_⟩
  · intro cfg st xstart xend img img_origin voxsize tpb nc hn0 hcf
    have hc : ¬ is_cuda_array (getA st img) = true := by simp [hcf]
    have hn : ¬ 0 < cfg.nvcd := by omega
    simp only [joseph3d_fwd]
    rw [if_neg hc, if_neg hn]
    exact ⟨rfl, rfl⟩
  · intro cfg st xstart xend img_shape img_origin voxsize img_fwd tpb nc hn0
      hcf
    have hc : ¬ is_cuda_array (getA st img_fwd) = true := by simp [hcf]
    have hn : ¬ 0 < cfg.nvcd := by omega
    simp only [joseph3d_back]
    rw [if_neg hc, if_neg hn]
    exact ⟨rfl, rfl⟩
  · intro cfg st xstart xend img img_origin voxsize tpb nc hcf hn
    have hc : ¬ is_cuda_array (getA st img) = true := by simp [hcf]
    simp only [joseph3d_fwd]
    rw [if_neg hc, if_pos hn]
    exact finishFwdHybrid_tr_head _ _ _ _ _ _
  · intro cfg st xstart xend img_shape img_origin voxsize img_fwd tpb nc hcf
      hn
    have hc : ¬ is_cuda_array (getA st img_fwd) = true := by simp [hcf]
    simp only [joseph3d_back]
    rw [if_neg hc, if_pos hn]
    exact finishBackHybrid_tr_head _ _ _ _ _ _ _

/-- Witness for the amended C5: a concrete CPU call with an inconsistent
payload runs the kernel and returns normally, and a concrete hybrid call
goes straight to the device copy. -/
theorem adapter_validation_absent_witness :
    cfg0.nvcd = 0 ∧ is_cuda_array (getA stEx 5) = false
    ∧ (isOkRes (joseph3d_back cfg0 stEx 0 1 [1, 1, 1] 3 4 5 32 1).res = true
      ∧ (joseph3d_back cfg0 stEx 0 1 [1, 1, 1] 3 4 5 32 1).tr
          = [Ev.cBackKernel])
    ∧ (∃ restTr, (joseph3d_fwd cfgFail stEx 0 1 2 3 4 32 1).tr
        = Ev.copyToAllDevices :: restTr) :=
  ⟨rfl, rfl,
   adapter_validation_absent.2.1 cfg0 stEx 0 1 [1, 1, 1] 3 4 5 32 1 rfl rfl,
   adapter_validation_absent.2.2.1 cfgFail stEx 0 1 2 3 4 32 1 rfl
     (by decide)⟩

/-! ## Claim theorems: device buffer lifetime in the hybrid path -/

lemma finishFwdHybrid_free (stR : Store) (trR : List Ev) (outId : ArrId)
    (ns : NSpace) (dev : Device) (err : Option PyErr)
    (htr : ∀ ev ∈ trR, ∃ i, ev = Ev.chunkFwdKernel i) :
    (isOkRes (finishFwdHybrid stR trR outId ns dev err).res = true →
      Ev.freeAllDevices ∈ (finishFwdHybrid stR trR outId ns dev err).tr
      ∧ Ev.copyToAllDevices ∈ (finishFwdHybrid stR trR outId ns dev err).tr)
    ∧ (∀ e, (finishFwdHybrid stR trR outId ns dev err).res
          = Except.error e →
      Ev.freeAllDevices ∉ (finishFwdHybrid stR trR outId ns dev err).tr
      ∧ Ev.copyToAllDevices
          ∈ (finishFwdHybrid stR trR outId ns dev err).tr) := by
  cases err with
  | some e2 =>
      constructor
      · intro hok
        simp [finishFwdHybrid, isOkRes] at hok
      · intro e _
        constructor
        · intro hmem
          simp only [finishFwdHybrid, List.mem_cons] at hmem
          rcases hmem with h1 | h1
          · exact Ev.noConfusion h1
          · obtain ⟨i, hi⟩ := htr _ h1
            exact Ev.noConfusion hi
        · simp [finishFwdHybrid]
  | none =>
      constructor
      · intro _
        constructor
        · simp [finishFwdHybrid]
        · simp [finishFwdHybrid]
      · intro e he
        simp [finishFwdHybrid] at he

lemma finishBackHybrid_free (cfg : Cfg) (st1 : Store) (trc : List Ev)
    (outId : ArrId) (ns : NSpace) (dev : Device) (err : Option PyErr)
    (htr : ∀ ev ∈ trc, ∃ i, ev = Ev.chunkBackKernel i) :
    (isOkRes (finishBackHybrid cfg st1 trc outId ns dev err).res = true →
      Ev.freeAllDevices ∈ (finishBackHybrid cfg st1 trc outId ns dev err).tr
      ∧ Ev.copyToAllDevices
          ∈ (finishBackHybrid cfg st1 trc outId ns dev err).tr)
    ∧ (∀ e, (finishBackHybrid cfg st1 trc outId ns dev err).res
          = Except.error e →
      Ev.freeAllDevices ∉ (finishBackHybrid cfg st1 trc outId ns dev err).tr
      ∧ Ev.copyToAllDevices
          ∈ (finishBackHybrid cfg st1 trc outId ns dev err).tr) := by
  cases err with
  | some e2 =>
      constructor
      · intro hok
        simp [finishBackHybrid, isOkRes] at hok
      · intro e _
        constructor
        · intro hmem
          simp only [finishBackHybrid, List.mem_cons] at hmem
          rcases hmem with h1 | h1
          · exact Ev.noConfusion h1
          · obtain ⟨i, hi⟩ := htr _ h1
            exact Ev.noConfusion hi
        · simp [finishBackHybrid]
  | none =>
      constructor
      · intro _
        constructor
        · simp [finishBackHybrid]
        · simp [finishBackHybrid]
      · intro e he
        simp [finishBackHybrid] at he

/-- C7 counterexample: with one visible CUDA device and a failing first chunk
launch, the hybrid forward call copies the image to all devices, propagates
the launch error, and never frees the device replicas — the allocation is
not released on this exit path. -/
theorem hybrid_error_leak_cex :
    (joseph3d_fwd cfgFail stEx 0 1 2 3 4 32 1).res
        = Except.error (PyErr.deviceError 0)
    ∧ (joseph3d_fwd cfgFail stEx 0 1 2 3 4 32 1).tr
        = [Ev.copyToAllDevices, Ev.chunkFwdKernel 0]
    ∧ Ev.copyToAllDevices ∈ (joseph3d_fwd cfgFail stEx 0 1 2 3 4 32 1).tr
    ∧ Ev.freeAllDevices ∉ (joseph3d_fwd cfgFail stEx 0 1 2 3 4 32 1).tr :=
  ⟨rfl, rfl, by decide, by decide⟩

/-- C7 amended: in the hybrid multi-GPU path the device replicas are freed on
the normal exit path, after all chunk launches succeed; but when a chunk
kernel launch fails the error propagates without the replicas being freed. -/
theorem hybrid_free_on_success_only :
    (∀ cfg st xstart xend img img_origin voxsize tpb nc,
      is_cuda_array (getA st img) = false → 0 < cfg.nvcd →
      (isOkRes (joseph3d_fwd cfg st xstart xend img img_origin voxsize tpb
          nc).res = true →
        Ev.freeAllDevices ∈ (joseph3d_fwd cfg st xstart xend img img_origin
            voxsize tpb nc).tr
        ∧ Ev.copyToAllDevices ∈ (joseph3d_fwd cfg st xstart xend img
            img_origin voxsize tpb nc).tr)
      ∧ (∀ e, (joseph3d_fwd cfg st xstart xend img img_origin voxsize tpb
            nc).res = Except.error e →
        Ev.freeAllDevices ∉ (joseph3d_fwd cfg st xstart xend img img_origin
            voxsize tpb nc).tr
        ∧ Ev.copyToAllDevices ∈ (joseph3d_fwd cfg st xstart xend img
            img_origin voxsize tpb nc).tr))
    ∧ (∀ cfg st xstart xend img_shape img_origin voxsize img_fwd tpb nc,
      is_cuda_array (getA st img_fwd) = false → 0 < cfg.nvcd →
      (isOkRes (joseph3d_back cfg st xstart xend img_shape img_origin
          voxsize img_fwd tpb nc).res = true →
        Ev.freeAllDevices ∈ (joseph3d_back cfg st xstart xend img_shape
            img_origin voxsize img_fwd tpb nc).tr
        ∧ Ev.copyToAllDevices ∈ (joseph3d_back cfg st xstart xend img_shape
            img_origin voxsize img_fwd tpb nc).tr)
      ∧ (∀ e, (joseph3d_back cfg st xstart xend img_shape img_origin voxsize
            img_fwd tpb nc).res = Except.error e →
        Ev.freeAllDevices ∉ (joseph3d_back cfg st xstart xend img_shape
            img_origin voxsize img_fwd tpb nc).tr
        ∧ Ev.copyToAllDevices ∈ (joseph3d_back cfg st xstart xend img_shape
            img_origin voxsize img_fwd tpb nc).tr)) := by
  constructor
  · intro cfg st xstart xend img img_origin voxsize tpb nc hcf hn
    have hc : ¬ is_cuda_array (getA st img) = true := by simp [hcf]
    simp only [joseph3d_fwd]
    rw [if_neg hc, if_pos hn]
    exact finishFwdHybrid_free _ _ _ _ _ _
      (fun ev hev => runFwdChunks_tr _ _ _ _ _ _ _ ev hev)
  · intro cfg st xstart xend img_shape img_origin voxsize img_fwd tpb nc hcf
      hn
    have hc : ¬ is_cuda_array (getA st img_fwd) = true := by simp [hcf]
    simp only [joseph3d_back]
    rw [if_neg hc, if_pos hn]
    exact finishBackHybrid_free _ _ _ _ _ _ _
      (fun ev hev => runBackChunks_tr _ _ ev hev)

/-- Witness for the amended C7: the failing-chunk run from the
counterexample instantiates the error clause; a run with no failures
instantiates the success clause. -/
theorem hybrid_free_on_success_only_witness :
    is_cuda_array (getA stEx 2) = false ∧ 0 < cfgFail.nvcd
    ∧ (Ev.freeAllDevices ∉ (joseph3d_fwd cfgFail stEx 0 1 2 3 4 32 1).tr
      ∧ Ev.copyToAllDevices ∈ (joseph3d_fwd cfgFail stEx 0 1 2 3 4 32 1).tr)
    ∧ (Ev.freeAllDevices
        ∈ (joseph3d_fwd ⟨1, fun _ => none, fun _ => none, fun _ _ => []⟩
            stEx 0 1 2 3 4 32 1).tr
      ∧ Ev.copyToAllDevices
        ∈ (joseph3d_fwd ⟨1, fun _ => none, fun _ => none, fun _ _ => []⟩
            stEx 0 1 2 3 4 32 1).tr) :=
  ⟨rfl, by decide,
   (hybrid_free_on_success_only.1 cfgFail stEx 0 1 2 3 4 32 1 rfl
      (by decide)).2 (PyErr.deviceError 0) rfl,
   (hybrid_free_on_success_only.1 ⟨1, fun _ => none, fun _ => none,
      fun _ _ => []⟩ stEx 0 1 2 3 4 32 1 rfl (by decide)).1 rfl⟩

/-! ## Claim theorems: module initialisation -/

/-- C6: at module initialisation the CPU native library path is the value of
`PARALLELPROJ_C_LIB` when that variable is set, and the `find_library` probe
result otherwise; if no library was located, initialisation is an
`ImportError` — fatal for the session, with no projector operation defined. -/
theorem module_init_cpu_lib :
    (∀ env findLib v, env "PARALLELPROJ_C_LIB" = some v →
      lib_parallelproj_c_fname env findLib = some v
      ∧ moduleInit env findLib = InitResult.loaded v)
    ∧ (∀ env findLib, env "PARALLELPROJ_C_LIB" = none →
      lib_parallelproj_c_fname env findLib = findLib "parallelproj_c")
    ∧ (∀ env findLib, env "PARALLELPROJ_C_LIB" = none →
      findLib "parallelproj_c" = none →
      moduleInit env findLib = InitResult.importError
        "Cannot find parallelproj c lib. Consider setting the environment variable PARALLELPROJ_C_LIB."
      ∧ moduleOps (moduleInit env findLib) = []) := by
  refine ⟨?_, ?_, ?_⟩
  · intro env findLib v h
    have h1 : lib_parallelproj_c_fname env findLib = some v := by
      simp [lib_parallelproj_c_fname, h, libFnameAux]
    refine ⟨h1, ?_⟩
    rw [moduleInit, h1]
    rfl
  · intro env findLib h
    simp [lib_parallelproj_c_fname, h, libFnameAux]
  · intro env findLib h1 h2
    have h3 : lib_parallelproj_c_fname env findLib = none := by
      simp [lib_parallelproj_c_fname, h1, h2, libFnameAux]
    constructor
    · rw [moduleInit, h3]
      rfl
    · rw [moduleInit, h3]
      rfl

/-- Witness for C6 at concrete environment functions: a set variable is used
verbatim; an empty environment with a failing probe yields the fatal
initialisation failure with no operations defined. -/
theorem module_init_cpu_lib_witness :
    ((fun _ : String => some "libparallelproj_c.so") "PARALLELPROJ_C_LIB"
        = some "libparallelproj_c.so"
      ∧ moduleInit (fun _ => some "libparallelproj_c.so") (fun _ => none)
        = InitResult.loaded "libparallelproj_c.so")
    ∧ ((fun _ : String => (none : Option String)) "PARALLELPROJ_C_LIB" = none
      ∧ moduleOps (moduleInit (fun _ => none) (fun _ => none)) = []) :=
  ⟨⟨rfl,
    (module_init_cpu_lib.1 (fun _ => some "libparallelproj_c.so")
      (fun _ => none) "libparallelproj_c.so" rfl).2⟩,
   ⟨rfl,
    (module_init_cpu_lib.2.2 (fun _ => none) (fun _ => none) rfl rfl).2⟩⟩

/-! ## Claim theorems: the point-source test LOR construction -/

/-- C9: after the three successive assignments to component 0 of `xstart`
(values 0, 0, 100) and to component 0 of `xend` (values 0, 0, −100), every
row of `xstart` is `(100, 0, 0)` and every row of `xend` is `(−100, 0, 0)`:
the last write wins on component 0 and components 1 and 2 stay zero, so the
constructed LOR runs through the centre along axis 0 from `(+100,0,0)` to
`(−100,0,0)`. -/
theorem tof_test_lor_endpoints :
    ∀ k : Nat,
      xstartTest k 0 = 100 ∧ xstartTest k 1 = 0 ∧ xstartTest k 2 = 0
      ∧ xendTest k 0 = -100 ∧ xendTest k 1 = 0 ∧ xendTest k 2 = 0 :=
  fun _ => ⟨rfl, rfl, rfl, rfl, rfl, rfl⟩

/-! ## Claim theorems: CUDA array detection -/

lemma is_cuda_numpy (x : Arr) (hx : x.ns = NSpace.numpy) :
    is_cuda_array x = false := by
  unfold is_cuda_array
  rw [hx]
  rw [if_neg (by decide :
    ¬ containsSub "cupy".toList (nsModName NSpace.numpy) = true)]
  rw [if_neg (by decide :
    ¬ containsSub "torch".toList (nsModName NSpace.numpy) = true)]

lemma is_cuda_cupy (x : Arr) (hx : x.ns = NSpace.cupy) :
    is_cuda_array x = true := by
  unfold is_cuda_array
  rw [hx]
  rw [if_pos (by decide :
    containsSub "cupy".toList (nsModName NSpace.cupy) = true)]

lemma is_cuda_torch (x : Arr) (hx : x.ns = NSpace.torch) :
    is_cuda_array x = decide (x.device.kind = DevKind.cuda) := by
  unfold is_cuda_array
  rw [hx]
  rw [if_neg (by decide :
    ¬ containsSub "cupy".toList (nsModName NSpace.torch) = true)]
  rw [if_pos (by decide :
    containsSub "torch".toList (nsModName NSpace.torch) = true)]

lemma finishFwdHybrid_no_cupy (stR : Store) (trR : List Ev) (outId : ArrId)
    (ns : NSpace) (dev : Device) (err : Option PyErr)
    (htr : ∀ ev ∈ trR, ∃ i, ev = Ev.chunkFwdKernel i) :
    Ev.cupyFwdKernel ∉ (finishFwdHybrid stR trR outId ns dev err).tr := by
  cases err with
  | some e =>
      intro hmem
      simp only [finishFwdHybrid, List.mem_cons] at hmem
      rcases hmem with h1 | h1
      · exact Ev.noConfusion h1
      · obtain ⟨i, hi⟩ := htr _ h1
        exact Ev.noConfusion hi
  | none =>
      intro hmem
      simp only [finishFwdHybrid, List.mem_cons, List.mem_append,
        List.not_mem_nil, or_false] at hmem
      rcases hmem with h1 | h1 | h1
      · exact Ev.noConfusion h1
      · obtain ⟨i, hi⟩ := htr _ h1
        exact Ev.noConfusion hi
      · exact Ev.noConfusion h1

/-- C10: `is_cuda_array x` is true exactly when the namespace of `x` is cupy,
or it is torch and `x` lives on a CUDA device; it is false for every numpy
array, and a host numpy image is never routed to the cupy device kernel. -/
theorem is_cuda_array_characterization :
    (∀ x : Arr, is_cuda_array x = true ↔
      (x.ns = NSpace.cupy
        ∨ (x.ns = NSpace.torch ∧ x.device.kind = DevKind.cuda)))
    ∧ (∀ x : Arr, x.ns = NSpace.numpy → is_cuda_array x = false)
    ∧ (∀ cfg st xstart xend img img_origin voxsize tpb nc,
      (getA st img).ns = NSpace.numpy →
      Ev.cupyFwdKernel ∉ (joseph3d_fwd cfg st xstart xend img img_origin
          voxsize tpb nc).tr) := by
  have hfalse : ∀ x : Arr, x.ns = NSpace.numpy → is_cuda_array x = false :=
    fun x hx => is_cuda_numpy x hx
  refine ⟨?_, hfalse, ?_⟩
  · intro x
    cases hx : x.ns with
    | numpy => rw [is_cuda_numpy x hx]; simp [hx]
    | cupy => rw [is_cuda_cupy x hx]; simp [hx]
    | torch => rw [is_cuda_torch x hx]; simp [hx, decide_eq_true_iff]
  · intro cfg st xstart xend img img_origin voxsize tpb nc hns
    have hc : ¬ is_cuda_array (getA st img) = true := by
      simp [hfalse (getA st img) hns]
    simp only [joseph3d_fwd]
    rw [if_neg hc]
    by_cases hn : 0 < cfg.nvcd
    · rw [if_pos hn]
      exact finishFwdHybrid_no_cupy _ _ _ _ _ _
        (fun ev hev => runFwdChunks_tr _ _ _ _ _ _ _ ev hev)
    · rw [if_neg hn]
      intro hmem
      simp [finishDirect] at hmem

/-! ## Claim theorems: adjointness of the kernel pairs -/

lemma dotF_comm {α : Type} [Fintype α] (f h : α → ℚ) :
    dotF f h = dotF h f := by
  unfold dotF
  exact Finset.sum_congr rfl (fun _ _ => mul_comm _ _)

lemma dotF_foldl_scatter {O V : Type} [Fintype O] [DecidableEq O]
    (img : V → ℚ) (y : O → ℚ) :
    ∀ (M : List (O × V × ℚ)) (f : O → ℚ),
      dotF (M.foldl (fun acc e => fun o =>
        if o = e.1 then acc o + e.2.2 * img e.2.1 else acc o) f) y
      = dotF f y + (M.map (fun e => e.2.2 * img e.2.1 * y e.1)).sum := by
  intro M
  induction M with
  | nil => intro f; simp
  | cons e M ih =>
      intro f
      rw [List.foldl_cons, ih]
      have hstep : dotF
          (fun o => if o = e.1 then f o + e.2.2 * img e.2.1 else f o) y
          = dotF f y + e.2.2 * img e.2.1 * y e.1 := by
        unfold dotF
        have h1 : ∀ o : O,
            (if o = e.1 then f o + e.2.2 * img e.2.1 else f o) * y o
            = f o * y o
              + (if o = e.1 then e.2.2 * img e.2.1 * y o else 0) := by
          intro o
          by_cases h : o = e.1 <;> simp [h] <;> ring
        calc ∑ o, (if o = e.1 then f o + e.2.2 * img e.2.1 else f o) * y o
            = ∑ o, (f o * y o
                + (if o = e.1 then e.2.2 * img e.2.1 * y o else 0)) :=
              Finset.sum_congr rfl (fun o _ => h1 o)
          _ = (∑ o, f o * y o)
                + ∑ o, (if o = e.1 then e.2.2 * img e.2.1 * y o else 0) :=
              Finset.sum_add_distrib
          _ = (∑ o, f o * y o) + e.2.2 * img e.2.1 * y e.1 := by
              rw [Finset.sum_ite_eq' Finset.univ e.1
                (fun o => e.2.2 * img e.2.1 * y o)]
              simp
      rw [hstep, List.map_cons, List.sum_cons]
      ring

/-- The inner product of a forward application against a payload is the sum
of `w · img[v] · y[o]` over all traversal entries. -/
lemma dotF_applyFwd {O V : Type} [Fintype O] [DecidableEq O]
    (M : List (O × V × ℚ)) (img : V → ℚ) (y : O → ℚ) :
    dotF (applyFwd M img) y
      = (M.map (fun e => e.2.2 * img e.2.1 * y e.1)).sum := by
  unfold applyFwd
  rw [dotF_foldl_scatter img y M (fun _ => 0)]
  have h0 : dotF (fun _ : O => (0 : ℚ)) y = 0 := by
    unfold dotF; simp
  rw [h0, zero_add]

/-- The back application is the forward application of the transposed entry
list: same traversal, same weights, rows and columns exchanged. -/
lemma applyBack_eq_applyFwd_swap {O V : Type} [DecidableEq V]
    (M : List (O × V × ℚ)) (y : O → ℚ) :
    applyBack M y = applyFwd (M.map (fun e => (e.2.1, e.1, e.2.2))) y := by
  unfold applyBack applyFwd
  rw [List.foldl_map]

/-- Exact adjointness of any matching forward/back fold pair over the same
entry list. -/
lemma adjoint_generic {O V : Type} [Fintype O] [Fintype V] [DecidableEq O]
    [DecidableEq V] (M : List (O × V × ℚ)) (im : V → ℚ) (yy : O → ℚ) :
    dotF (applyFwd M im) yy = dotF im (applyBack M yy) := by
  rw [dotF_applyFwd M im yy, dotF_comm im (applyBack M yy),
    applyBack_eq_applyFwd_swap M yy,
    dotF_applyFwd (M.map (fun e => (e.2.1, e.1, e.2.2))) yy im,
    List.map_map]
  have hfun : (fun e : O × V × ℚ => e.2.2 * im e.2.1 * yy e.1)
      = (fun e2 : V × O × ℚ => e2.2.2 * yy e2.2.1 * im e2.1)
          ∘ (fun e : O × V × ℚ => (e.2.1, e.1, e.2.2)) := by
    funext e
    show _ = e.2.2 * yy e.1 * im e.2.1
    ring
  rw [hfun]

/-- Exact adjointness, together with the relative-difference form of the
claim (trivially satisfied since the difference is exactly zero). -/
lemma adjoint_pair_full {O V : Type} [Fintype O] [Fintype V] [DecidableEq O]
    [DecidableEq V] (M : List (O × V × ℚ)) (im : V → ℚ) (yy : O → ℚ) :
    dotF (applyFwd M im) yy = dotF im (applyBack M yy)
    ∧ |dotF (applyFwd M im) yy - dotF im (applyBack M yy)|
        / max |dotF (applyFwd M im) yy| |dotF im (applyBack M yy)|
        < 1 / 10000 := by
  have he := adjoint_generic M im yy
  refine ⟨he, ?_⟩
  rw [he, sub_self, abs_zero, zero_div]
  norm_num

/-- C1: for every image `x` and every projection payload `y`, each of the
three kernel pairs — non-TOF, TOF sinogram and TOF listmode — satisfies the
adjointness identity `⟨Ax, y⟩ = ⟨x, Aᵀy⟩` exactly (in the exact-arithmetic
model of the kernels), hence the relative difference
`|⟨Ax,y⟩ − ⟨x,Aᵀy⟩| / max(|⟨Ax,y⟩|, |⟨x,Aᵀy⟩|)` is below `1e-4` for every
batch size `nL`, in particular up to `10^6` LORs. -/
theorem adjointness_all_kernel_pairs (sq erf : ℚ → ℚ) (g : ImgGeom)
    (nL ntof : Nat) (xs xe : Fin nL → Fin 3 → ℚ) (tp : TofParams nL)
    (tof_bin : Fin nL → ℤ) (img : Voxel g → ℚ) (yNT : Fin nL → ℚ)
    (yTS : Fin nL × Fin ntof → ℚ) (yLM : Fin nL → ℚ) :
    (dotF (joseph3d_fwd_kernel sq g nL xs xe img) yNT
        = dotF img (joseph3d_back_kernel sq g nL xs xe yNT)
      ∧ |dotF (joseph3d_fwd_kernel sq g nL xs xe img) yNT
            - dotF img (joseph3d_back_kernel sq g nL xs xe yNT)|
          / max |dotF (joseph3d_fwd_kernel sq g nL xs xe img) yNT|
              |dotF img (joseph3d_back_kernel sq g nL xs xe yNT)|
          < 1 / 10000)
    ∧ (dotF (joseph3d_fwd_tof_sino_kernel erf sq g nL ntof xs xe tp img) yTS
        = dotF img
            (joseph3d_back_tof_sino_kernel erf sq g nL ntof xs xe tp yTS)
      ∧ |dotF (joseph3d_fwd_tof_sino_kernel erf sq g nL ntof xs xe tp img)
              yTS
            - dotF img (joseph3d_back_tof_sino_kernel erf sq g nL ntof xs xe
                tp yTS)|
          / max
              |dotF (joseph3d_fwd_tof_sino_kernel erf sq g nL ntof xs xe tp
                  img) yTS|
              |dotF img (joseph3d_back_tof_sino_kernel erf sq g nL ntof xs
                  xe tp yTS)|
          < 1 / 10000)
    ∧ (dotF (joseph3d_fwd_tof_lm_kernel erf sq g nL xs xe tp tof_bin img)
          yLM
        = dotF img
            (joseph3d_back_tof_lm_kernel erf sq g nL xs xe tp tof_bin yLM)
      ∧ |dotF (joseph3d_fwd_tof_lm_kernel erf sq g nL xs xe tp tof_bin img)
              yLM
            - dotF img (joseph3d_back_tof_lm_kernel erf sq g nL xs xe tp
                tof_bin yLM)|
          / max
              |dotF (joseph3d_fwd_tof_lm_kernel erf sq g nL xs xe tp tof_bin
                  img) yLM|
              |dotF img (joseph3d_back_tof_lm_kernel erf sq g nL xs xe tp
                  tof_bin yLM)|
          < 1 / 10000) := by
  refine ⟨?_, ?_, ?_⟩
  · simp only [joseph3d_fwd_kernel, joseph3d_back_kernel]
    exact adjoint_pair_full (entriesNT sq g nL xs xe) img yNT
  · simp only [joseph3d_fwd_tof_sino_kernel, joseph3d_back_tof_sino_kernel]
    exact adjoint_pair_full (entriesTS erf sq g nL ntof xs xe tp) img yTS
  · simp only [joseph3d_fwd_tof_lm_kernel, joseph3d_back_tof_lm_kernel]
    exact adjoint_pair_full (entriesLM erf sq g nL xs xe tp tof_bin) img yLM

/-- Witness for C10 at concrete arrays of each framework. -/
theorem is_cuda_array_characterization_witness :
    (getA stEx 2).ns = NSpace.numpy
    ∧ is_cuda_array (getA stEx 2) = false
    ∧ is_cuda_array
        ⟨[1], DType.float32, NSpace.cupy, ⟨DevKind.cuda, 0⟩, [0]⟩ = true
    ∧ Ev.cupyFwdKernel ∉ (joseph3d_fwd cfg0 stEx 0 1 2 3 4 32 1).tr :=
  ⟨rfl,
   is_cuda_array_characterization.2.1 (getA stEx 2) rfl,
   (is_cuda_array_characterization.1
      ⟨[1], DType.float32, NSpace.cupy, ⟨DevKind.cuda, 0⟩, [0]⟩).mpr
     (Or.inl rfl),
   is_cuda_array_characterization.2.2 cfg0 stEx 0 1 2 3 4 32 1 rfl⟩

end Parallelproj
